import Mathlib

/-!
Shallow embedding of the CDCSDK producer core
(`src/ent/src/yb/cdc/cdcsdk_producer.cc`) and proofs about its claims.

Modelling conventions:
* DocDB byte decoding (doc-key prefix extraction, column-id suffix decode,
  value-type decode, sub-key counting) is external library code; an `Intent`
  (and a `WritePair`) therefore carries the already-decoded data that the
  producer reads off an intent: the whole-doc-key fingerprint (`primaryKey`),
  the optional decoded column-id suffix with its key-entry type, the decoded
  value entry type, the number of sub-keys of the decoded `SubDocKey`, the
  number of primary-key components of the doc key, the physical-microsecond
  component of the intent hybrid time, the intra-transaction write id and the
  reverse index key.
* Protobuf messages become plain structures with the protobuf default values;
  `RowMessage::IsInitialized()` is `true` for these messages (they have no
  required fields), so where the source guards on it the model drops the
  guard.
* External collaborators (the intent store's `GetIntents`, the consensus log
  reader, the catalog client, the snapshot iterator, the tablet-split catalog
  check) are oracles: their results are inputs of the model, carried either in
  a `TabletEnv` or on each log message.
* Machine integers (`int64`, `int32`, `uint64`, `size_t`) are modelled by
  `Int`/`Nat`; none of the modelled arithmetic can overflow except
  `schema.num_key_columns() - 1`, which in C++ wraps for a keyless schema;
  theorems about that expression assume at least one key column.
-/

namespace CdcSdk

/-- Consensus `OpId`: a (term, index) pair, ordered lexicographically. -/
structure OpId where
  term : Int
  index : Int
  deriving Repr, DecidableEq, Inhabited

/-- `OpId::operator<=`: lexicographic comparison on (term, index). -/
def opIdLeB (a b : OpId) : Bool :=
  ((compare a.term b.term).then (compare a.index b.index)) != Ordering.gt

/-- The `CDCSDKCheckpointPB` protobuf: the cursor echoed to and from
consumers (term, index, write_id, key, snapshot_time), protobuf defaults. -/
structure CheckpointPB where
  term : Int := 0
  index : Int := 0
  writeId : Int := 0
  key : String := ""
  snapshotTime : Nat := 0
  deriving Repr, DecidableEq, Inhabited

/-- Lexicographic comparison of two cursors over
`(term, index, snapshot_time, key, write_id)` — the ordering named by the
spec's cursor-monotonicity invariant. -/
def cursorCmp (a b : CheckpointPB) : Ordering :=
  (((compare a.term b.term).then (compare a.index b.index)).then
      ((compare a.snapshotTime b.snapshotTime).then (compare a.key b.key))).then
    (compare a.writeId b.writeId)

/-- `a ≤ b` for cursors under the spec's lexicographic ordering. -/
def cursorLeB (a b : CheckpointPB) : Bool :=
  cursorCmp a b != Ordering.gt

/-- `RowMessage::Op` values used by the producer. `UNKNOWN` is the protobuf
default of a cleared message. -/
inductive RowOp where
  | UNKNOWN
  | INSERT
  | UPDATE
  | DELETE
  | BEGIN
  | COMMIT
  | DDL
  | TRUNCATE
  | READ
  deriving Repr, DecidableEq, Inhabited

/-- Decoded `docdb::ValueEntryType` classification of an intent value. -/
inductive ValueEntryType where
  | kTombstone
  | kNullLow
  | kPackedRow
  | kOtherValue
  deriving Repr, DecidableEq, Inhabited

/-- Decoded `docdb::KeyEntryType` of the column-id suffix of an intent key. -/
inductive KeyEntryType where
  | kColumnId
  | kSystemColumnId
  | kOtherKey
  deriving Repr, DecidableEq, Inhabited

/-- The tablet schema data the producer reads: `num_columns()`,
`num_key_columns()` and `is_key_column(column_id)` (via the id list). -/
structure Schema where
  numColumns : Nat := 0
  numKeyColumns : Nat := 0
  keyColumnIds : List Nat := []
  deriving Repr, DecidableEq, Inhabited

/-- `Schema::is_key_column(ColumnId)`. -/
def Schema.isKeyColumn (s : Schema) (cid : Nat) : Bool :=
  s.keyColumnIds.contains cid

/-- One `docdb::IntentKeyValueForCDC` with its decodings (see the file
header); `pkColumns` is the number of components of the doc key's hashed
group plus range group. -/
structure Intent where
  primaryKey : String
  columnIdOpt : Option (KeyEntryType × Nat)
  valueType : ValueEntryType
  numSubkeys : Nat
  pkColumns : Nat
  physTime : Nat
  writeId : Int
  reverseIndexKey : String
  deriving Repr, DecidableEq, Inhabited

/-- A default-constructed `IntentKeyValueForCDC` (the initial `prev_intent`
of `PopulateCDCSDKIntentRecord`): empty buffers, write id 0. -/
def Intent.default0 : Intent :=
  { primaryKey := "", columnIdOpt := none, valueType := .kOtherValue,
    numSubkeys := 0, pkColumns := 0, physTime := 0, writeId := 0,
    reverseIndexKey := "" }

/-- A datum of a record tuple: `some c` is a value produced by
`AddColumnToMap` for column `c`, `none` is the bare placeholder datum that
`add_old_tuple()` / `add_new_tuple()` append on the opposite list. -/
abbrev Datum := Option Nat

/-- The `RowMessage` protobuf fields the producer writes. -/
structure RowMsg where
  op : RowOp := .UNKNOWN
  transactionId : String := ""
  tableName : String := ""
  commitTime : Nat := 0
  schemaVersion : Nat := 0
  newTuple : List Datum := []
  oldTuple : List Datum := []
  deriving Repr, DecidableEq, Inhabited

/-- One `CDCSDKProtoRecordPB` of the response: the row message plus the
`cdc_sdk_op_id` locator (term, index, write_id, write_id_key). -/
structure CDCRecord where
  rowMsg : RowMsg
  locTerm : Int := 0
  locIndex : Int := 0
  locWriteId : Int := 0
  locKey : String := ""
  deriving Repr, DecidableEq, Inhabited

/-- `AddTuple` (lines 95-109): for a DELETE the datum goes on `old_tuple`
and a placeholder on `new_tuple`; otherwise the reverse. -/
def addTupleDatum (r : RowMsg) (d : Datum) : RowMsg :=
  if r.op == .DELETE then
    { r with oldTuple := r.oldTuple ++ [d], newTuple := r.newTuple ++ [none] }
  else
    { r with newTuple := r.newTuple ++ [d], oldTuple := r.oldTuple ++ [none] }

/-- `AddPrimaryKey` (lines 111-130): one `AddTuple` + `AddColumnToMap` per
component of the doc key's hashed group and range group, with the component
index as the column. -/
def addPrimaryKey (r : RowMsg) (pkColumns : Nat) : RowMsg :=
  (List.range pkColumns).foldl (fun acc i => addTupleDatum acc (some i)) r

/-- Lines 226-227: the intent's decoded suffix is a `kColumnId` entry for a
key column of the schema — such intents are skipped. -/
def isKeyColumnIntent (schema : Schema) (i : Intent) : Bool :=
  match i.columnIdOpt with
  | some (KeyEntryType.kColumnId, cid) => schema.isKeyColumn cid
  | _ => false

/-- Lines 243-244 / 266-267: the value is a tombstone and the decoded key
has no sub-keys (a root-level delete). -/
def isRootTombstone (i : Intent) : Bool :=
  i.valueType == ValueEntryType.kTombstone && i.numSubkeys == 0

/-- Lines 274-276: the suffix is the system (liveness) column and the value
decodes to `kNullLow` — the marker of an INSERT. -/
def isSystemNull (i : Intent) : Bool :=
  match i.columnIdOpt with
  | some (KeyEntryType.kSystemColumnId, _) => i.valueType == ValueEntryType.kNullLow
  | _ => false

/-- The `new_cdc_record_needed` computation of lines 240-248, for both
values of `FLAGS_enable_single_record_update`. -/
def newCdcRecordNeeded (packed : Bool) (schema : Schema) (prevKey : String)
    (colCount : Nat) (prevPhysTime : Nat) (i : Intent) : Bool :=
  if packed then
    (prevKey != i.primaryKey) || (decide (colCount ≥ schema.numColumns)) ||
      isRootTombstone i || (prevPhysTime != i.physTime)
  else
    (prevKey != i.primaryKey) || (decide (colCount ≥ schema.numColumns))

/-- The loop state of `PopulateCDCSDKIntentRecord`: the records already
copied into the response, the in-progress `proto_record`/`row_message`, the
accumulation bookkeeping, and the output `write_id`/`reverse_index_key`
(initialised to `0`/`""` by `ProcessIntents`, lines 602-603). -/
structure PopState where
  records : List CDCRecord := []
  rowMsg : RowMsg := {}
  colCount : Nat := 0
  prevKey : String := ""
  prevPhysTime : Nat := 0
  prevIntent : Intent := Intent.default0
  outWriteId : Int := 0
  outRevKey : String := ""
  deriving Repr, DecidableEq, Inhabited

/-- `MakeNewProtoRecord` (lines 165-179): copy the current row message into
the response with the given intent's locator and record that locator as the
resume position. -/
def makeNewProtoRecord (opId : OpId) (intent : Intent) (row : RowMsg)
    (s : PopState) : PopState :=
  { s with
    records := s.records ++
      [{ rowMsg := row, locTerm := opId.term, locIndex := opId.index,
         locWriteId := intent.writeId, locKey := intent.reverseIndexKey }],
    outWriteId := intent.writeId,
    outRevKey := intent.reverseIndexKey }

/-- Lines 250-263 of the intent loop: in packed mode reset `col_count` and
flush a pending UPDATE with the previous intent's locator, then clear the
proto record and row message. -/
def flushAndClear (packed : Bool) (opId : OpId) (s : PopState) : PopState :=
  let s :=
    if packed then
      let s := { s with colCount := if 0 < s.colCount then 0 else s.colCount }
      if s.rowMsg.op == .UPDATE then makeNewProtoRecord opId s.prevIntent s.rowMsg s
      else s
    else s
  { s with rowMsg := {} }

/-- Lines 265-291 of the intent loop: classify the freshly opened record as
DELETE / INSERT / UPDATE, then stamp the transaction id and add the
primary-key columns. -/
def classifyOpen (packed : Bool) (schema : Schema) (txnId : String)
    (s : PopState) (i : Intent) : PopState :=
  let s :=
    if isRootTombstone i then
      let s := { s with rowMsg := { s.rowMsg with op := .DELETE }, outWriteId := i.writeId }
      if packed then s else { s with colCount := schema.numColumns }
    else if isSystemNull i then
      { s with rowMsg := { s.rowMsg with op := .INSERT },
               colCount := schema.numKeyColumns - 1 }
    else
      let s := { s with rowMsg := { s.rowMsg with op := .UPDATE }, outWriteId := i.writeId }
      if packed then s else { s with colCount := schema.numColumns }
  { s with rowMsg := addPrimaryKey { s.rowMsg with transactionId := txnId } i.pkColumns }

/-- Lines 294-342 of the intent loop: update the previous-row bookkeeping,
count the column and fold a regular-column datum into an INSERT/UPDATE,
set the table, then emit the record (or keep accumulating a packed
UPDATE). -/
def foldAndEmit (packed : Bool) (schema : Schema) (tableName : String)
    (opId : OpId) (s : PopState) (i : Intent) : PopState :=
  -- lines 294-295
  let s := { s with prevKey := i.primaryKey, prevPhysTime := i.physTime }
  -- lines 296-321
  let s :=
    if s.rowMsg.op == .INSERT || s.rowMsg.op == .UPDATE then
      let s :=
        if packed then { s with colCount := s.colCount + 1 }
        else if s.rowMsg.op == .INSERT then { s with colCount := s.colCount + 1 }
        else s
      match i.columnIdOpt with
      | some (KeyEntryType.kColumnId, cid) =>
          { s with rowMsg := { s.rowMsg with
              newTuple := s.rowMsg.newTuple ++ [some cid],
              oldTuple := s.rowMsg.oldTuple ++ [none] } }
      | _ => s
    else s
  -- line 323
  let s := { s with rowMsg := { s.rowMsg with tableName := tableName } }
  -- lines 324-342
  if packed then
    if (s.rowMsg.op == .INSERT && s.colCount == schema.numColumns) ||
        s.rowMsg.op == .DELETE then
      { (makeNewProtoRecord opId i s.rowMsg s) with colCount := schema.numColumns }
    else if s.rowMsg.op == .UPDATE then { s with prevIntent := i }
    else s
  else
    if (s.rowMsg.op == .INSERT && s.colCount == schema.numColumns) ||
        s.rowMsg.op == .UPDATE || s.rowMsg.op == .DELETE then
      makeNewProtoRecord opId i s.rowMsg s
    else s

/-- One iteration of the intent loop of `PopulateCDCSDKIntentRecord`
(lines 205-343). -/
def intentStep (packed : Bool) (schema : Schema) (txnId : String)
    (tableName : String) (opId : OpId) (s : PopState) (i : Intent) : PopState :=
  -- lines 226-231: a key-column intent only advances the resume locator
  if isKeyColumnIntent schema i then
    { s with outWriteId := i.writeId, outRevKey := i.reverseIndexKey }
  else
    -- lines 240-248
    if newCdcRecordNeeded packed schema s.prevKey s.colCount s.prevPhysTime i then
      foldAndEmit packed schema tableName opId
        (classifyOpen packed schema txnId (flushAndClear packed opId s) i) i
    else foldAndEmit packed schema tableName opId s i

/-- `PopulateCDCSDKIntentRecord` (lines 181-354): fold the intents, then
flush a trailing packed UPDATE (lines 345-351). -/
def populateIntentRecord (packed : Bool) (schema : Schema) (txnId : String)
    (tableName : String) (opId : OpId) (intents : List Intent) : PopState :=
  let s := intents.foldl (intentStep packed schema txnId tableName opId) {}
  if packed && s.rowMsg.op == .UPDATE then
    makeNewProtoRecord opId s.prevIntent { s.rowMsg with tableName := tableName } s
  else s

/-- The `docdb::ApplyTransactionState` fields the producer uses: the intent
stream's resume position. `key == "" && write_id == 0` marks a fresh /
fully-consumed transaction. -/
structure StreamState where
  key : String := ""
  writeId : Int := 0
  deriving Repr, DecidableEq, Inhabited

/-- The failure kinds of the modelled paths: the garbage-collected-intents
`InternalError` of lines 554-563, a key/value decode failure
(`RETURN_NOT_OK` of a DocDB decode), and the test-flag snapshot failure of
lines 806-809. -/
inductive ErrKind where
  | IntentsGCed
  | DecodeFailed
  | SnapshotFailed
  deriving Repr, DecidableEq, Inhabited

/-- The BEGIN record appended at lines 543-549 (no `cdc_sdk_op_id`). -/
def beginRecord (txnId tableName : String) : CDCRecord :=
  { rowMsg := { op := .BEGIN, transactionId := txnId, tableName := tableName } }

/-- The COMMIT record appended at lines 613-622, with locator
`(term, index, 0, "")`. -/
def commitRecord (opId : OpId) (txnId tableName : String) : CDCRecord :=
  { rowMsg := { op := .COMMIT, transactionId := txnId, tableName := tableName },
    locTerm := opId.term, locIndex := opId.index, locWriteId := 0, locKey := "" }

/-- Schema resolution of `ProcessIntents` (lines 565-592): use the cached
schema when initialised; otherwise, when there is at least one intent,
consult the catalog (`GetTableSchemaFromSysCatalog`, an oracle) and fall
back to the tablet's current schema on failure — only a catalog success
installs the cache. With no intents the loop does not run and the
uninitialised (empty) cached schema is used. Returns
`(schema used, version used, new cache)`. -/
def resolveIntentSchema (cachedSchema : Option Schema) (cachedVersion : Nat)
    (catalog : Option (Schema × Nat)) (tabletSchema : Schema)
    (tabletVersion : Nat) (hasIntents : Bool) :
    Schema × Nat × Option Schema :=
  match cachedSchema with
  | some s => (s, cachedVersion, some s)
  | none =>
      if hasIntents then
        match catalog with
        | some (s, v) => (s, v, some s)
        | none => (tabletSchema, tabletVersion, none)
      else ({}, cachedVersion, none)

/-- `ProcessIntents` (lines 528-629). The intent store's
`Tablet::GetIntents` is external; its result — the fetched intents and the
updated `stream_state` — is passed in (`intents`, `outState`), per the
contract "getIntents(txId, resumeCursor) -> (intents[], nextResumeCursor|done)".
Returns the records appended to the response, the updated checkpoint and the
updated schema cache, or the garbage-collected-intents error. -/
def processIntents (packed : Bool) (opId : OpId) (txnId : String)
    (tableName : String) (latestCheckpointOp : OpId) (tabletSchema : Schema)
    (tabletVersion : Nat) (catalog : Option (Schema × Nat))
    (inState : StreamState) (intents : List Intent) (outState : StreamState)
    (cachedSchema : Option Schema) (cachedVersion : Nat)
    (checkpoint : CheckpointPB) :
    Except ErrKind (List CDCRecord × CheckpointPB × Option Schema × Nat) :=
  -- lines 543-549: BEGIN for a fresh transaction
  let beginRecs :=
    if inState.key == "" && inState.writeId == 0 then [beginRecord txnId tableName] else []
  -- lines 553-563: zero intents at or below the retention checkpoint
  if intents.length == 0 && opIdLeB opId latestCheckpointOp then
    Except.error ErrKind.IntentsGCed
  else
    -- lines 565-592
    let r := resolveIntentSchema cachedSchema cachedVersion catalog tabletSchema
      tabletVersion (intents.length != 0)
    -- lines 606-609
    let pop := populateIntentRecord packed r.1 txnId tableName opId intents
    -- line 611: SetTermIndex
    let checkpoint := { checkpoint with term := opId.term, index := opId.index }
    -- lines 613-626
    if outState.key == "" && outState.writeId == 0 then
      Except.ok (beginRecs ++ pop.records ++ [commitRecord opId txnId tableName],
        { checkpoint with key := "", writeId := 0 }, r.2.2, r.2.1)
    else
      Except.ok (beginRecs ++ pop.records,
        { checkpoint with key := pop.outRevKey, writeId := pop.outWriteId }, r.2.2, r.2.1)

/-- One write pair of a non-transactional WAL write batch, with its
decodings (same conventions as `Intent`). A `columnIdOpt` of `none` stands
for an empty suffix, on which `KeyEntryValue::DecodeKey` fails. -/
structure WritePair where
  primaryKey : String
  columnIdOpt : Option (KeyEntryType × Nat)
  valueType : ValueEntryType
  numSubkeys : Nat
  pkColumns : Nat
  deriving Repr, DecidableEq, Inhabited

/-- Root-level tombstone test for a write pair (lines 398-399). -/
def isRootTombstonePair (p : WritePair) : Bool :=
  p.valueType == ValueEntryType.kTombstone && p.numSubkeys == 0

/-- Loop state of `PopulateCDCSDKWriteRecord`: finished records, the
response record currently being mutated in place, and the previous row
fingerprint. -/
structure WriteState where
  finished : List CDCRecord := []
  current : Option CDCRecord := none
  prevKey : String := ""
  deriving Repr, DecidableEq, Inhabited

/-- One iteration of the write-pair loop of `PopulateCDCSDKWriteRecord`
(lines 371-438). -/
def writeStep (_schema : Schema) (tableName : String) (commitTime : Nat)
    (opId : OpId) (s : WriteState) (p : WritePair) :
    Except ErrKind WriteState :=
  -- lines 383-418: a different row fingerprint opens a new response record
  let opened :
      Except ErrKind WriteState :=
    if s.prevKey != p.primaryKey then
      let finished := s.finished ++ (match s.current with | some r => [r] | none => [])
      -- lines 397-412: classify
      let classified : Except ErrKind RowMsg :=
        if isRootTombstonePair p then
          Except.ok { op := .DELETE }
        else
          match p.columnIdOpt with
          | none => Except.error ErrKind.DecodeFailed
          | some (t, _) =>
              if t == KeyEntryType.kSystemColumnId && p.valueType == ValueEntryType.kNullLow then
                Except.ok { op := .INSERT }
              else Except.ok { op := .UPDATE }
      match classified with
      | Except.error e => Except.error e
      | Except.ok row =>
          -- lines 414-417: primary key columns, commit time
          let row := { (addPrimaryKey row p.pkColumns) with
                       tableName := tableName, commitTime := commitTime }
          let rec0 : CDCRecord :=
            { rowMsg := row, locTerm := opId.term, locIndex := opId.index,
              locWriteId := 0, locKey := "" }
          Except.ok { finished := finished, current := some rec0,
                      prevKey := p.primaryKey }
    else Except.ok { s with prevKey := p.primaryKey }
  match opened with
  | Except.error e => Except.error e
  | Except.ok s =>
      -- lines 422-437: fold a regular-column datum into an INSERT/UPDATE row
      match s.current with
      | none => Except.ok s
      | some rec =>
          if rec.rowMsg.op == .INSERT || rec.rowMsg.op == .UPDATE then
            match p.columnIdOpt with
            | none => Except.error ErrKind.DecodeFailed
            | some (KeyEntryType.kColumnId, cid) =>
                Except.ok { s with current := some { rec with rowMsg := { rec.rowMsg with
                  newTuple := rec.rowMsg.newTuple ++ [some cid],
                  oldTuple := rec.rowMsg.oldTuple ++ [none] } } }
            | some _ => Except.ok s
          else Except.ok s

/-- The recursion of `PopulateCDCSDKWriteRecord` over the write pairs. -/
def populateWriteRecordGo (schema : Schema) (tableName : String)
    (commitTime : Nat) (opId : OpId) (s : WriteState) :
    List WritePair → Except ErrKind WriteState
  | [] => Except.ok s
  | p :: rest =>
      match writeStep schema tableName commitTime opId s p with
      | Except.error e => Except.error e
      | Except.ok s2 => populateWriteRecordGo schema tableName commitTime opId s2 rest

/-- `PopulateCDCSDKWriteRecord` (lines 357-441): the records appended to the
response for one non-transactional write batch. -/
def populateWriteRecord (schema : Schema) (tableName : String)
    (commitTime : Nat) (opId : OpId) (pairs : List WritePair) :
    Except ErrKind (List CDCRecord) :=
  match populateWriteRecordGo schema tableName commitTime opId {} pairs with
  | Except.error e => Except.error e
  | Except.ok s =>
      Except.ok (s.finished ++ (match s.current with | some r => [r] | none => []))

/-- `PopulateCDCSDKSnapshotRecord` (lines 631-672): one READ record per
scanned row; for each of the schema's columns a datum on `new_tuple` and a
placeholder on `old_tuple`. -/
def populateSnapshotRecord (schema : Schema) (tableName : String)
    (readTime : Nat) : CDCRecord :=
  { rowMsg :=
      (List.range schema.numColumns).foldl
        (fun r cid => { r with newTuple := r.newTuple ++ [some cid],
                               oldTuple := r.oldTuple ++ [none] })
        { op := .READ, tableName := tableName, commitTime := readTime } }

/-- `FillDDLInfo` (lines 675-706): one DDL record per colocated table,
carrying the current schema version. -/
def fillDDLInfo (count : Nat) (version : Nat) (tableName : String) :
    List CDCRecord :=
  (List.range count).map
    (fun _ => { rowMsg := { op := RowOp.DDL, tableName := tableName,
                            schemaVersion := version } })

/-- `PopulateCDCSDKDDLRecord` (lines 460-495): a DDL record for a
CHANGE_METADATA entry; its `schema_version` is the entry's raw
`change_metadata_request().schema_version()`. -/
def ddlRecord (term index : Int) (rawVersion : Nat) (tableName : String) :
    CDCRecord :=
  { rowMsg := { op := RowOp.DDL, tableName := tableName, schemaVersion := rawVersion },
    locTerm := term, locIndex := index, locWriteId := 0, locKey := "" }

/-- `PopulateCDCSDKTruncateRecord` (lines 497-516). -/
def truncateRecord (term index : Int) : CDCRecord :=
  { rowMsg := { op := RowOp.TRUNCATE },
    locTerm := term, locIndex := index, locWriteId := 0, locKey := "" }

/-- The DDL-deduplication test of lines 1018-1031: skip appending a DDL
record exactly when the last record already in the response is a DDL whose
`schema_version` equals the resolved schema version. -/
def ddlDedupSkip (resp : List CDCRecord) (resolvedVersion : Nat) : Bool :=
  match resp.getLast? with
  | some r => r.rowMsg.op == RowOp.DDL && r.rowMsg.schemaVersion == resolvedVersion
  | none => false

/-- The payload of one replicated WAL message, by operation type. External
calls made while handling the message carry their oracle results here:
`updateTxn` carries the `GetIntents` result and the catalog answer used
inside `ProcessIntents`; `changeMeta` carries the catalog cross-check
answer; `splitOp` carries the `VerifyTabletSplitOnParentTablet` answer. -/
inductive MsgKind where
  | updateTxn (applying : Bool) (txnId : String) (intents : List Intent)
      (outState : StreamState) (catalog : Option (Schema × Nat)) (commitHt : Nat)
  | writeOp (hasTxn : Bool) (pairs : List WritePair)
  | changeMeta (newSchema : Schema) (rawVersion : Nat) (catalog : Option (Schema × Nat))
  | truncateOp
  | splitOp (verified : Bool)
  | otherOp
  deriving Repr, DecidableEq, Inhabited

/-- One replicated message: OpId, hybrid time, the catalog answer for the
schema lookup done at the top of the message loop (lines 926-947), and the
per-kind payload. -/
structure Msg where
  term : Int
  index : Int
  hybridTime : Nat
  headCatalog : Option (Schema × Nat) := none
  kind : MsgKind
  deriving Repr, DecidableEq, Inhabited

/-- The runtime flags read by the producer. -/
structure Config where
  packed : Bool := true
  streamTruncate : Bool := false
  snapshotBatchSize : Nat := 250
  testSnapshotFail : Bool := false
  deriving Repr, DecidableEq, Inhabited

/-- The tablet-side oracles of one `GetChangesForCDCSDK` call: the tablet's
schema and version, the retention checkpoint, the two
`GetLastReplicatedData` answers of the snapshot handshake, the colocated
table count, the snapshot iterator's row count and next key, the snapshot
catalog answer, the WAL upper bound and the batches the log reader
returns, and the resume-path `GetIntents` data. -/
structure TabletEnv where
  tableName : String := ""
  tabletSchema : Schema := {}
  tabletVersion : Nat := 0
  latestCheckpointOp : OpId := ⟨0, 0⟩
  lastReplicated1 : OpId × Nat := (⟨0, 0⟩, 0)
  lastReplicated2 : OpId × Nat := (⟨0, 0⟩, 0)
  colocatedTables : Nat := 0
  snapshotRows : Nat := 0
  snapshotNextKey : String := ""
  snapshotCatalog : Option (Schema × Nat) := none
  lastReadable : Int := 0
  batches : List (List Msg) := []
  resumeTxnId : String := ""
  resumeIntents : List Intent := []
  resumeOutState : StreamState := {}
  resumeCatalog : Option (Schema × Nat) := none
  deriving Repr, DecidableEq, Inhabited

/-- The state threaded through the WAL streaming loop of
`GetChangesForCDCSDK` (lines 888-1129): the response records, the local
checkpoint with its updated flag, the `last_streamed_op_id` out-parameter,
the pending-intents break flag, the split OpId, the last non-actionable
OpId, the last seen OpId, and the schema cache. -/
structure WalState where
  resp : List CDCRecord := []
  checkpoint : CheckpointPB := {}
  checkpointUpdated : Bool := false
  lastStreamed : OpId := ⟨0, 0⟩
  pendingIntents : Bool := false
  splitOpId : OpId := ⟨-1, -1⟩
  lastSeenDefault : OpId := ⟨-1, -1⟩
  lastSeen : OpId := ⟨0, 0⟩
  cachedSchema : Option Schema := none
  cachedVersion : Nat := 0
  schemaStreamed : Bool := false
  commitTimestamp : Nat := 0
  deriving Repr, DecidableEq, Inhabited

/-- `SetCheckpoint` (lines 141-153) with a non-null `last_streamed_op_id`:
overwrite every cursor field and advance the streamed OpId. -/
def setCheckpoint (term index writeId : Int) (key : String) (time : Nat)
    (st : WalState) : WalState :=
  { st with
    checkpoint := { term := term, index := index, writeId := writeId,
                    key := key, snapshotTime := time },
    lastStreamed := ⟨term, index⟩ }

/-- The schema lookup at the top of the message loop (lines 926-950):
when the cache is uninitialised resolve from the catalog (falling back to
the tablet schema), install the cache, and emit the colocated DDL records
via `FillDDLInfo`; otherwise read the cache. Returns the schema to use for
this message. -/
def headSchemaResolve (env : TabletEnv) (m : Msg) (st : WalState) :
    WalState × Schema :=
  if !st.schemaStreamed && st.cachedSchema.isNone then
    match m.headCatalog with
    | none =>
        let sch := env.tabletSchema
        ({ st with cachedVersion := env.tabletVersion, schemaStreamed := true,
                   cachedSchema := some sch,
                   resp := st.resp ++
                     fillDDLInfo env.colocatedTables env.tabletVersion env.tableName },
         sch)
    | some (sch, v) =>
        ({ st with cachedVersion := v, schemaStreamed := true,
                   cachedSchema := some sch,
                   resp := st.resp ++ fillDDLInfo env.colocatedTables v env.tableName },
         sch)
  else (st, st.cachedSchema.getD env.tabletSchema)

/-- Dispatch of one WAL message (the `switch` of lines 952-1098, preceded
by the `last_seen_op_id` update and the schema lookup). -/
def processMsg (cfg : Config) (env : TabletEnv) (st0 : WalState) (m : Msg) :
    Except ErrKind WalState :=
  let st1 := { st0 with lastSeen := ⟨m.term, m.index⟩ }
  let hr := headSchemaResolve env m st1
  let st := hr.1
  let currentSchema := hr.2
  match m.kind with
  | .updateTxn applying txnId intents outState catalog commitHt =>
      -- lines 953-981
      if applying then
        let st := { st with commitTimestamp := commitHt }
        match processIntents cfg.packed ⟨m.term, m.index⟩ txnId env.tableName
            env.latestCheckpointOp env.tabletSchema env.tabletVersion catalog
            {} intents outState st.cachedSchema st.cachedVersion st.checkpoint with
        | Except.error e => Except.error e
        | Except.ok (recs, ckpt, newCached, newVer) =>
            let st := { st with resp := st.resp ++ recs, checkpoint := ckpt,
                                cachedSchema := newCached, cachedVersion := newVer }
            let st :=
              if outState.writeId != 0 && outState.key != "" then
                { st with pendingIntents := true }
              else
                { st with lastStreamed := ⟨m.term, m.index⟩ }
            Except.ok { st with checkpointUpdated := true }
      else Except.ok { st with checkpointUpdated := true }
  | .writeOp hasTxn pairs =>
      -- lines 983-995
      if !hasTxn then
        match populateWriteRecord currentSchema env.tableName m.hybridTime
            ⟨m.term, m.index⟩ pairs with
        | Except.error e => Except.error e
        | Except.ok recs =>
            Except.ok { (setCheckpoint m.term m.index 0 "" 0
              { st with resp := st.resp ++ recs }) with checkpointUpdated := true }
      else Except.ok st
  | .changeMeta newSchema rawVersion catalog =>
      -- lines 997-1035
      let st := { st with cachedSchema := some newSchema, cachedVersion := rawVersion }
      let st :=
        match catalog with
        | none => st
        | some (catSchema, catV) =>
            if rawVersion != catV then
              { st with cachedSchema := some catSchema, cachedVersion := catV }
            else st
      let st :=
        if ddlDedupSkip st.resp st.cachedVersion then st
        else { st with resp := st.resp ++ [ddlRecord m.term m.index rawVersion env.tableName] }
      Except.ok { (setCheckpoint m.term m.index 0 "" 0 st) with checkpointUpdated := true }
  | .truncateOp =>
      -- lines 1038-1047
      if cfg.streamTruncate then
        Except.ok { (setCheckpoint m.term m.index 0 "" 0
          { st with resp := st.resp ++ [truncateRecord m.term m.index] }) with
            checkpointUpdated := true }
      else Except.ok st
  | .splitOp verified =>
      -- lines 1049-1089
      if verified then
        if st.checkpointUpdated then Except.ok st
        else
          Except.ok { (setCheckpoint m.term m.index 0 "" 0 st) with
            checkpointUpdated := true, splitOpId := ⟨m.term, m.index⟩ }
      else Except.ok st
  | .otherOp =>
      -- lines 1091-1097
      Except.ok { st with lastSeenDefault := ⟨m.term, m.index⟩ }

/-- The message loop over one batch (lines 923-1101), breaking after a
message that left intents pending (line 1100). -/
def processMsgs (cfg : Config) (env : TabletEnv) (st : WalState) :
    List Msg → Except ErrKind WalState
  | [] => Except.ok st
  | m :: rest =>
      match processMsg cfg env st m with
      | Except.error e => Except.error e
      | Except.ok st2 =>
          if st2.pendingIntents then Except.ok st2
          else processMsgs cfg env st2 rest

/-- The batch-fetching do-while loop (lines 899-1115): stop on an empty
batch, otherwise process it (with the per-batch flags reset) and continue
while no checkpoint update happened and the upper bound is not reached. -/
def walLoop (cfg : Config) (env : TabletEnv) (st : WalState) :
    List (List Msg) → Except ErrKind WalState
  | [] => Except.ok st
  | b :: bs =>
      if b.isEmpty then Except.ok st
      else
        match processMsgs cfg env
            { st with pendingIntents := false, schemaStreamed := false } b with
        | Except.error e => Except.error e
        | Except.ok st1 =>
            if !st1.checkpointUpdated && decide (st1.lastSeen.index < env.lastReadable) then
              walLoop cfg env st1 bs
            else Except.ok st1

/-- The outcome of one successful `GetChangesForCDCSDK` call: the response
records, the `cdc_sdk_checkpoint`, the secondary `checkpoint.op_id` (set
when `last_streamed_op_id->index > 0`), the final `last_streamed_op_id`
out-value, the intent-retention pin installed by the snapshot handshake,
and whether the call ends with the terminal `TabletSplit` status. -/
structure GCOut where
  records : List CDCRecord
  cdcSdkCheckpoint : CheckpointPB
  respCheckpointOp : Option OpId
  lastStreamed : OpId
  retentionPin : Option OpId
  tabletSplit : Bool
  deriving Repr, DecidableEq, Inhabited

/-- The common tail of `GetChangesForCDCSDK` (lines 1131-1163): report a
tablet split when the split OpId equals the checkpoint outside snapshot
mode, echo the updated checkpoint or the received cursor, and expose
`last_streamed_op_id` when positive. -/
def finishTail (recs : List CDCRecord) (ckpt : CheckpointPB) (updated : Bool)
    (lastStreamed : OpId) (splitOpId : OpId) (snapshotOp : Bool)
    (pin : Option OpId) (fromOp : CheckpointPB) : GCOut :=
  let report := !snapshotOp && splitOpId.term == ckpt.term && splitOpId.index == ckpt.index
  { records := recs,
    cdcSdkCheckpoint := if updated then ckpt else fromOp,
    respCheckpointOp := if decide (0 < lastStreamed.index) then some lastStreamed else none,
    lastStreamed := lastStreamed,
    retentionPin := pin,
    tabletSplit := report }

/-- `GetChangesForCDCSDK` (lines 732-1164): mode dispatch on the received
cursor — snapshot (`write_id == -1`, with handshake and continuation),
mid-transaction resume (non-empty key, non-zero write id), or WAL
streaming — followed by the common tail. -/
def getChangesForCDCSDK (cfg : Config) (env : TabletEnv) (fromOp : CheckpointPB)
    (initCachedSchema : Option Schema) (initCachedVersion : Nat)
    (initLastStreamed : OpId) : Except ErrKind GCOut :=
  let opId : OpId := ⟨fromOp.term, fromOp.index⟩
  if fromOp.writeId == -1 then
    -- snapshot branch, lines 760-866
    if fromOp.key == "" && fromOp.snapshotTime == 0 then
      -- handshake, lines 768-796: the first `GetLastReplicatedData` read
      -- feeds `UpdateCDCConsumerOpId` and the intent-retention pin (lines
      -- 779, 787-788); the second read (line 789) overwrites `data`
      -- entirely, so `SetCheckpoint` (lines 794-795) takes the checkpoint
      -- term, index and time from the second read; no events
      let d1 := env.lastReplicated1
      let d2 := env.lastReplicated2
      let ckpt : CheckpointPB :=
        { term := d2.1.term, index := d2.1.index, writeId := -1, key := "",
          snapshotTime := d2.2 }
      Except.ok (finishTail [] ckpt true initLastStreamed ⟨-1, -1⟩ true
        (some d1.1) fromOp)
    else
      -- continuation, lines 797-866
      if cfg.testSnapshotFail then Except.error ErrKind.SnapshotFailed
      else
        -- lines 811-830: schema resolution (cache, catalog, tablet fallback)
        let r :=
          match initCachedSchema with
          | some s => (s, initCachedVersion)
          | none =>
              match env.snapshotCatalog with
              | some sv => sv
              | none => (env.tabletSchema, env.tabletVersion)
        -- line 831
        let ddl := fillDDLInfo env.colocatedTables r.2 env.tableName
        -- lines 833-845: scan up to the batch size
        let fetched := min env.snapshotRows cfg.snapshotBatchSize
        let reads := (List.range fetched).map
          (fun _ => populateSnapshotRecord r.1 env.tableName fromOp.snapshotTime)
        -- lines 846-865
        let ckpt : CheckpointPB :=
          if env.snapshotNextKey == "" then
            { term := fromOp.term, index := fromOp.index, writeId := 0,
              key := "", snapshotTime := 0 }
          else
            { term := fromOp.term, index := fromOp.index, writeId := -1,
              key := env.snapshotNextKey, snapshotTime := fromOp.snapshotTime }
        Except.ok (finishTail (ddl ++ reads) ckpt true initLastStreamed
          ⟨-1, -1⟩ true none fromOp)
  else if fromOp.key != "" && fromOp.writeId != 0 then
    -- mid-transaction resume, lines 867-887
    match processIntents cfg.packed opId env.resumeTxnId env.tableName
        env.latestCheckpointOp env.tabletSchema env.tabletVersion
        env.resumeCatalog { key := fromOp.key, writeId := fromOp.writeId }
        env.resumeIntents env.resumeOutState initCachedSchema
        initCachedVersion {} with
    | Except.error e => Except.error e
    | Except.ok (recs, ckpt, _, _) =>
        let lastStreamed :=
          if ckpt.writeId == 0 && ckpt.key == "" then (⟨ckpt.term, ckpt.index⟩ : OpId)
          else initLastStreamed
        Except.ok (finishTail recs ckpt true lastStreamed ⟨-1, -1⟩ false none fromOp)
  else
    -- WAL streaming, lines 888-1129
    let st0 : WalState :=
      { lastStreamed := initLastStreamed, lastSeen := opId,
        cachedSchema := initCachedSchema, cachedVersion := initCachedVersion }
    match walLoop cfg env st0 env.batches with
    | Except.error e => Except.error e
    | Except.ok st1 =>
        -- lines 1117-1128: fall back to the last non-actionable OpId
        let st2 :=
          if !st1.checkpointUpdated && st1.lastSeenDefault != (⟨-1, -1⟩ : OpId) then
            { (setCheckpoint st1.lastSeenDefault.term st1.lastSeenDefault.index
                0 "" 0 st1) with checkpointUpdated := true }
          else st1
        Except.ok (finishTail st2.resp st2.checkpoint st2.checkpointUpdated
          st2.lastStreamed st2.splitOpId false none fromOp)

/-! ### Definitions used to state the claims -/

/-- An intent whose decoded parts are mutually consistent, as produced by
the actual DocDB encoding: the doc key carries exactly the schema's key
columns; an empty suffix (`columnIdOpt = none`) only arises on a root-level
tombstone; a column-id or system-column suffix is itself a sub-key; a
system-column intent carries the `kNullLow` liveness marker. -/
def canonicalIntent (schema : Schema) (i : Intent) : Bool :=
  (i.pkColumns == schema.numKeyColumns) &&
  (match i.columnIdOpt with
   | none => isRootTombstone i
   | some (KeyEntryType.kColumnId, _) => i.numSubkeys != 0
   | some (KeyEntryType.kSystemColumnId, _) =>
       (i.valueType == ValueEntryType.kNullLow) && (i.numSubkeys != 0)
   | some (KeyEntryType.kOtherKey, _) => false)

/-- Row groups are separated in the batch: an intent that starts a row
version (the liveness system column; in unpacked mode also a root
tombstone) never continues the directly preceding non-key-column intent's
(primary key, physical time) group. `pk`/`pt` are the previous non-skipped
intent's fingerprint and physical time. -/
def wellSeparated (packed : Bool) (schema : Schema) (pk : String) (pt : Nat) :
    List Intent → Bool
  | [] => true
  | i :: rest =>
      if isKeyColumnIntent schema i then wellSeparated packed schema pk pt rest
      else
        (if isSystemNull i || (!packed && isRootTombstone i) then
          (i.primaryKey != pk) || (packed && (i.physTime != pt))
         else true) &&
        wellSeparated packed schema i.primaryKey i.physTime rest

/-- The per-record tuple-shape property of the spec: an INSERT has a full
`new_tuple`; a DELETE has its primary-key columns on `old_tuple` and one
placeholder per primary-key column on `new_tuple`. -/
def tupleShapeOk (schema : Schema) (r : CDCRecord) : Prop :=
  (r.rowMsg.op = RowOp.INSERT → r.rowMsg.newTuple.length = schema.numColumns) ∧
  (r.rowMsg.op = RowOp.DELETE →
    r.rowMsg.oldTuple = (List.range schema.numKeyColumns).map some ∧
    r.rowMsg.newTuple = List.replicate schema.numKeyColumns none)

/-- The per-record tuple-length parity property: `old_tuple` and
`new_tuple` have the same length, and a DELETE's `new_tuple` is a list of
placeholders matching a populated `old_tuple` of primary-key columns. -/
def tupleParityOk (r : CDCRecord) : Prop :=
  r.rowMsg.oldTuple.length = r.rowMsg.newTuple.length ∧
  (r.rowMsg.op = RowOp.DELETE →
    ∃ k, r.rowMsg.oldTuple = (List.range k).map some ∧
      r.rowMsg.newTuple = List.replicate k none)

/-- Loop invariant for the column-count accumulation: while an INSERT is
being accumulated its `new_tuple` length equals `col_count`, and while the
current record is a DELETE the count has saturated (so the next intent
always opens a new record). -/
def accumInv (schema : Schema) (s : PopState) : Prop :=
  (s.rowMsg.op = RowOp.INSERT → s.rowMsg.newTuple.length = s.colCount) ∧
  (s.rowMsg.op = RowOp.DELETE → schema.numColumns ≤ s.colCount)

/-- Loop invariant for the tuple-length parity of the record being
accumulated. -/
def parityInv (s : PopState) : Prop :=
  s.rowMsg.oldTuple.length = s.rowMsg.newTuple.length ∧
  (s.rowMsg.op = RowOp.DELETE →
    ∃ k, s.rowMsg.oldTuple = (List.range k).map some ∧
      s.rowMsg.newTuple = List.replicate k none)

/-- The possible values of the resume locator `(write_id,
reverse_index_key)` after the intent loop: untouched, the locator of the
last emitted record, or the locator of a skipped primary-key-column intent
of the batch. -/
def resumeLocatorOk (schema : Schema) (intents : List Intent)
    (s : PopState) : Prop :=
  (s.records = [] ∧ s.outWriteId = 0 ∧ s.outRevKey = "") ∨
  (∃ r, s.records.getLast? = some r ∧ s.outWriteId = r.locWriteId ∧
    s.outRevKey = r.locKey) ∨
  (∃ i ∈ intents, isKeyColumnIntent schema i = true ∧
    s.outWriteId = i.writeId ∧ s.outRevKey = i.reverseIndexKey)

/-- Loop invariant of the intent-record loop for tuple-length parity: the
row message being accumulated has equal-length tuples (a DELETE one has the
placeholder shape), and every emitted record satisfies `tupleParityOk`. -/
def parityAll (s : PopState) : Prop :=
  (s.rowMsg.oldTuple.length = s.rowMsg.newTuple.length ∧
   (s.rowMsg.op = RowOp.DELETE →
     ∃ k, s.rowMsg.oldTuple = (List.range k).map some ∧
       s.rowMsg.newTuple = List.replicate k none)) ∧
  ∀ r ∈ s.records, tupleParityOk r

/-- Loop invariant of the write-record loop for tuple-length parity. -/
def wparityAll (ws : WriteState) : Prop :=
  (∀ r ∈ ws.finished, tupleParityOk r) ∧
  (∀ r, ws.current = some r → tupleParityOk r)

/-- The schema version a CHANGE_METADATA entry resolves to (lines
1005-1017): the catalog's version when the catalog answers, the entry's raw
version otherwise. -/
def resolvedMetaVersion (rawVersion : Nat) (catalog : Option (Schema × Nat)) : Nat :=
  match catalog with
  | some (_, v) => v
  | none => rawVersion

/-- A WAL message compatible with cursor monotonicity: its OpId is at or
after the request cursor (the log reader returns entries from the cursor
on), and transaction entries are in APPLYING state. -/
def goodMsg (fromOp : CheckpointPB) (m : Msg) : Prop :=
  opIdLeB ⟨fromOp.term, fromOp.index⟩ ⟨m.term, m.index⟩ = true ∧
  (match m.kind with
   | MsgKind.updateTxn applying _ _ _ _ _ => applying = true
   | _ => True)

/-- The invariant the WAL loop maintains on the locally built checkpoint:
once it has been updated, its (term, index) stays at or after the request
cursor, and so does the recorded last non-actionable OpId once set. -/
def ckptMono (f : OpId) (st : WalState) : Prop :=
  (st.checkpointUpdated = true →
    opIdLeB f ⟨st.checkpoint.term, st.checkpoint.index⟩ = true) ∧
  (st.lastSeenDefault ≠ (⟨-1, -1⟩ : OpId) → opIdLeB f st.lastSeenDefault = true)

/-! ## Helper lemmas -/

theorem foldAddTuple_delete (l : List Nat) (r : RowMsg) (h : r.op = RowOp.DELETE) :
    l.foldl (fun acc i => addTupleDatum acc (some i)) r =
      { r with oldTuple := r.oldTuple ++ l.map some,
               newTuple := r.newTuple ++ List.replicate l.length none } := by
  induction l generalizing r with
  | nil => simp
  | cons a t ih =>
      rw [List.foldl_cons]
      have h1 : addTupleDatum r (some a) =
          { r with oldTuple := r.oldTuple ++ [some a],
                   newTuple := r.newTuple ++ [none] } := by
        simp [addTupleDatum, h]
      rw [h1, ih _ (by simp [h])]
      simp [List.append_assoc, List.replicate_succ]

theorem foldAddTuple_nondelete (l : List Nat) (r : RowMsg) (h : ¬r.op = RowOp.DELETE) :
    l.foldl (fun acc i => addTupleDatum acc (some i)) r =
      { r with newTuple := r.newTuple ++ l.map some,
               oldTuple := r.oldTuple ++ List.replicate l.length none } := by
  induction l generalizing r with
  | nil => simp
  | cons a t ih =>
      rw [List.foldl_cons]
      have h1 : addTupleDatum r (some a) =
          { r with newTuple := r.newTuple ++ [some a],
                   oldTuple := r.oldTuple ++ [none] } := by
        have hb : (r.op == RowOp.DELETE) = false := by
          simp only [beq_eq_false_iff_ne, ne_eq]; exact h
        simp [addTupleDatum, hb]
      rw [h1, ih _ (by simp [h])]
      simp [List.append_assoc, List.replicate_succ]

theorem addPrimaryKey_delete (r : RowMsg) (h : r.op = RowOp.DELETE) (n : Nat) :
    addPrimaryKey r n =
      { r with oldTuple := r.oldTuple ++ (List.range n).map some,
               newTuple := r.newTuple ++ List.replicate n none } := by
  simpa [addPrimaryKey] using foldAddTuple_delete (List.range n) r h

theorem addPrimaryKey_nondelete (r : RowMsg) (h : ¬r.op = RowOp.DELETE) (n : Nat) :
    addPrimaryKey r n =
      { r with newTuple := r.newTuple ++ (List.range n).map some,
               oldTuple := r.oldTuple ++ List.replicate n none } := by
  simpa [addPrimaryKey] using foldAddTuple_nondelete (List.range n) r h

theorem addPrimaryKey_op (r : RowMsg) (n : Nat) :
    (addPrimaryKey r n).op = r.op := by
  by_cases h : r.op = RowOp.DELETE
  · rw [addPrimaryKey_delete r h]
  · rw [addPrimaryKey_nondelete r h]

theorem addPrimaryKey_newLen (r : RowMsg) (n : Nat) :
    (addPrimaryKey r n).newTuple.length = r.newTuple.length + n := by
  by_cases h : r.op = RowOp.DELETE
  · rw [addPrimaryKey_delete r h]; simp
  · rw [addPrimaryKey_nondelete r h]; simp

theorem addPrimaryKey_oldLen (r : RowMsg) (n : Nat) :
    (addPrimaryKey r n).oldTuple.length = r.oldTuple.length + n := by
  by_cases h : r.op = RowOp.DELETE
  · rw [addPrimaryKey_delete r h]; simp
  · rw [addPrimaryKey_nondelete r h]; simp

theorem foldAndEmit_newLen_le (p : Bool) (sch : Schema) (tn : String) (op : OpId)
    (s : PopState) (i : Intent) :
    (foldAndEmit p sch tn op s i).rowMsg.newTuple.length ≤ s.rowMsg.newTuple.length + 1 := by
  simp only [foldAndEmit, makeNewProtoRecord]
  repeat' split
  all_goals simp

theorem flushAndClear_rowMsg (p : Bool) (op : OpId) (s : PopState) :
    (flushAndClear p op s).rowMsg = {} := by
  simp only [flushAndClear, makeNewProtoRecord]

theorem classifyOpen_newLen (p : Bool) (sch : Schema) (txnId : String)
    (s : PopState) (i : Intent) (h : s.rowMsg = {}) :
    (classifyOpen p sch txnId s i).rowMsg.newTuple.length = i.pkColumns := by
  simp only [classifyOpen, h]
  split
  · split <;>
      · rw [addPrimaryKey_delete _ (by rfl)]
        simp
  · split
    · rw [addPrimaryKey_nondelete _ (by simp)]
      simp
    · split <;>
        · rw [addPrimaryKey_nondelete _ (by simp)]
          simp

/-! ## C3: packed-update flush condition -/

/-- C3. In packed mode (`enable_single_record_update`),
`PopulateCDCSDKIntentRecord` opens a new CDC record for a non-key-column
intent exactly when (a) the primary key changed, or (b) the accumulated
column count reached the schema width, or (c) the value is a root-level
tombstone, or (d) the intent's physical time differs from the previous
intent's; and when only (d) fires, the record built by the step holds no
column accumulated before this intent (at most the primary key plus this
intent's datum), so two updates of one row at different physical times are
never coalesced. -/
theorem packedFlushCondition (schema : Schema) (txnId tableName : String)
    (opId : OpId) (s : PopState) (i : Intent) :
    (newCdcRecordNeeded true schema s.prevKey s.colCount s.prevPhysTime i = true ↔
      (s.prevKey ≠ i.primaryKey ∨ schema.numColumns ≤ s.colCount ∨
        (i.valueType = ValueEntryType.kTombstone ∧ i.numSubkeys = 0) ∨
        s.prevPhysTime ≠ i.physTime)) ∧
    (s.prevPhysTime ≠ i.physTime → isKeyColumnIntent schema i = false →
      (intentStep true schema txnId tableName opId s i).rowMsg.newTuple.length ≤
        i.pkColumns + 1) := by
  constructor
  · simp only [newCdcRecordNeeded, if_true, Bool.or_eq_true, bne_iff_ne, ne_eq,
      decide_eq_true_eq, isRootTombstone, Bool.and_eq_true, beq_iff_eq]
    tauto
  · intro hphys hkey
    have hneed : newCdcRecordNeeded true schema s.prevKey s.colCount s.prevPhysTime i = true := by
      simp only [newCdcRecordNeeded, if_true, Bool.or_eq_true, bne_iff_ne, ne_eq]
      tauto
    simp only [intentStep, hkey, Bool.false_eq_true, if_false, hneed, if_true]
    -- after `classifyOpen` the cleared row message holds exactly the
    -- primary-key columns; `foldAndEmit` adds at most one datum
    have hlen := classifyOpen_newLen true schema txnId (flushAndClear true opId s) i
      (flushAndClear_rowMsg true opId s)
    have hle := foldAndEmit_newLen_le true schema tableName opId
      (classifyOpen true schema txnId (flushAndClear true opId s) i) i
    omega

/-- Witness for `packedFlushCondition`. -/
theorem packedFlushCondition_witness :
    ((⟨"", some (KeyEntryType.kColumnId, 1), ValueEntryType.kOtherValue, 1, 1,
        7, 3, "w"⟩ : Intent).physTime ≠ (0 : Nat)) ∧
    (intentStep true { numColumns := 2, numKeyColumns := 1, keyColumnIds := [0] }
      "tx" "t" ⟨1, 2⟩ {}
      ⟨"", some (KeyEntryType.kColumnId, 1), ValueEntryType.kOtherValue, 1, 1,
        7, 3, "w"⟩).rowMsg.newTuple.length ≤ 2 := by
  refine ⟨by decide, ?_⟩
  exact (packedFlushCondition { numColumns := 2, numKeyColumns := 1, keyColumnIds := [0] }
    "tx" "t" ⟨1, 2⟩ {} _).2 (by decide) (by decide)

/-! ## C5: garbage-collected intents failure -/

/-- C5. `ProcessIntents` fails with `IntentsGCed` exactly when the intent
fetch returned zero intents and the apply record's OpId is at or below the
tablet's latest retention checkpoint; in every other case it does not fail
for this reason. -/
theorem intentsGCedExactly (packed : Bool) (opId : OpId) (txnId tableName : String)
    (latestCk : OpId) (ts : Schema) (tv : Nat) (cat : Option (Schema × Nat))
    (inState : StreamState) (intents : List Intent) (outState : StreamState)
    (cs : Option Schema) (cv : Nat) (ck : CheckpointPB) :
    (processIntents packed opId txnId tableName latestCk ts tv cat inState
        intents outState cs cv ck = Except.error ErrKind.IntentsGCed) ↔
      (intents = [] ∧ opIdLeB opId latestCk = true) := by
  simp only [processIntents]
  split
  · rename_i h
    simp only [Bool.and_eq_true, beq_iff_eq, List.length_eq_zero] at h
    simp [h.1, h.2]
  · rename_i h
    simp only [Bool.and_eq_true, beq_iff_eq, List.length_eq_zero, not_and_or] at h
    constructor
    · intro hc
      exfalso
      split at hc <;> exact Except.noConfusion hc
    · intro hc
      rcases h with h | h
      · exact absurd hc.1 h
      · rw [hc.2] at h; exact absurd rfl h

/-! ## C10: tuple-length parity -/

theorem parity_flushAndClear (p : Bool) (op : OpId) (s : PopState)
    (h : parityAll s) : parityAll (flushAndClear p op s) := by
  obtain ⟨⟨hlen, hdel⟩, hrecs⟩ := h
  simp only [flushAndClear, makeNewProtoRecord]
  constructor
  · exact ⟨by simp, by intro hx; exact ⟨0, by simp⟩⟩
  · intro r hr
    simp only at hr
    split at hr
    · split at hr
      · rename_i hcond
        simp only [List.mem_append, List.mem_singleton] at hr
        rcases hr with hr | hr
        · exact hrecs r hr
        · subst hr
          refine ⟨hlen, ?_⟩
          intro hop
          simp only [beq_iff_eq] at hcond
          exact absurd (hcond.symm.trans hop) (by decide)
      · exact hrecs r hr
    · exact hrecs r hr

theorem parity_classifyOpen (p : Bool) (sch : Schema) (txnId : String)
    (s : PopState) (i : Intent) (hrm : s.rowMsg = {})
    (h : ∀ r ∈ s.records, tupleParityOk r) :
    parityAll (classifyOpen p sch txnId s i) := by
  simp only [classifyOpen, hrm]
  constructor
  · split
    · constructor
      · split <;>
          · simp only []
            rw [addPrimaryKey_delete _ (by rfl)]
            simp
      · intro hop
        refine ⟨i.pkColumns, ?_⟩
        split <;>
          · simp only []
            rw [addPrimaryKey_delete _ (by rfl)]
            simp
    · split
      · constructor
        · rw [addPrimaryKey_nondelete _ (by simp)]
          simp
        · intro hop
          rw [addPrimaryKey_op] at hop
          simp at hop
      · constructor
        · split <;>
            · simp only []
              rw [addPrimaryKey_nondelete _ (by simp)]
              simp
        · intro hop
          split at hop <;>
            · rw [addPrimaryKey_op] at hop
              simp at hop
  · intro r hr
    split at hr
    · split at hr <;> exact h r hr
    · split at hr
      · exact h r hr
      · split at hr <;> exact h r hr

theorem parity_foldAndEmit (p : Bool) (sch : Schema) (tn : String) (op : OpId)
    (s : PopState) (i : Intent) (h : parityAll s) :
    parityAll (foldAndEmit p sch tn op s i) := by
  obtain ⟨⟨hlen, hdel⟩, hrecs⟩ := h
  rcases hc : i.columnIdOpt with _ | ⟨kt, cid⟩ <;>
    [skip; rcases kt] <;>
  · simp only [foldAndEmit, makeNewProtoRecord, hc]
    repeat' split
    all_goals dsimp only at *
    all_goals
      refine ⟨⟨by simp [hlen], ?_⟩, ?_⟩ <;>
        [(intro hop
          first
            | (exfalso; simp_all; done)
            | exact hdel hop);
         (intro r hr
          simp only [List.mem_append, List.mem_singleton] at hr
          first
            | exact hrecs r hr
            | (rcases hr with hr | hr
               · exact hrecs r hr
               · subst hr
                 refine ⟨by simp [hlen], ?_⟩
                 intro hop
                 first
                   | (exfalso; simp_all; done)
                   | exact hdel hop))]

theorem parity_intentStep (p : Bool) (sch : Schema) (txnId tn : String)
    (op : OpId) (s : PopState) (i : Intent) (h : parityAll s) :
    parityAll (intentStep p sch txnId tn op s i) := by
  simp only [intentStep]
  split
  · obtain ⟨hm, hr⟩ := h
    exact ⟨hm, hr⟩
  · split
    · exact parity_foldAndEmit _ _ _ _ _ _
        (parity_classifyOpen _ _ _ _ _ (flushAndClear_rowMsg _ _ _)
          (parity_flushAndClear _ _ _ h).2)
    · exact parity_foldAndEmit _ _ _ _ _ _ h

theorem parity_fold (p : Bool) (sch : Schema) (txnId tn : String) (op : OpId)
    (l : List Intent) (s : PopState) (h : parityAll s) :
    parityAll (l.foldl (intentStep p sch txnId tn op) s) := by
  induction l generalizing s with
  | nil => exact h
  | cons a t ih => exact ih _ (parity_intentStep _ _ _ _ _ _ _ h)

theorem parity_populate (p : Bool) (sch : Schema) (txnId tn : String)
    (op : OpId) (intents : List Intent) :
    ∀ r ∈ (populateIntentRecord p sch txnId tn op intents).records,
      tupleParityOk r := by
  have h0 : parityAll ({} : PopState) := by
    refine ⟨⟨rfl, ?_⟩, by simp⟩
    intro hx
    exact ⟨0, by simp⟩
  have hf := parity_fold p sch txnId tn op intents {} h0
  obtain ⟨⟨hlen, hdel⟩, hrecs⟩ := hf
  simp only [populateIntentRecord]
  split
  · rename_i hcond
    simp only [makeNewProtoRecord]
    intro r hr
    simp only [List.mem_append, List.mem_singleton] at hr
    rcases hr with hr | hr
    · exact hrecs r hr
    · subst hr
      refine ⟨by simp [hlen], ?_⟩
      intro hop
      simp only [Bool.and_eq_true, beq_iff_eq] at hcond
      dsimp only at hop
      rw [hcond.2] at hop
      exact absurd hop (by decide)
  · exact hrecs

theorem parity_writeStep (sch : Schema) (tn : String) (ct : Nat) (op : OpId)
    (s : WriteState) (p : WritePair) (s2 : WriteState)
    (h : wparityAll s) (hstep : writeStep sch tn ct op s p = Except.ok s2) :
    wparityAll s2 := by
  obtain ⟨hfin, hcur⟩ := h
  have hfin2 : ∀ r ∈ s.finished ++ (match s.current with | some r => [r] | none => []),
      tupleParityOk r := by
    intro r hr
    rcases List.mem_append.mp hr with hr | hr
    · exact hfin r hr
    · rcases hcc : s.current with _ | rc
      · simp [hcc] at hr
      · simp only [hcc, List.mem_singleton] at hr
        subst hr
        exact hcur r hcc
  by_cases hnk : (s.prevKey != p.primaryKey) = true
  · by_cases hrt : isRootTombstonePair p = true
    · -- DELETE row opened
      simp only [writeStep, hnk, hrt, if_true] at hstep
      rw [addPrimaryKey_delete _ (by rfl)] at hstep
      dsimp only at hstep
      split at hstep
      · -- insert/update guard on the fresh DELETE record: impossible
        rename_i hguard
        simp at hguard
      · simp only [Except.ok.injEq] at hstep
        subst hstep
        refine ⟨hfin2, ?_⟩
        intro r hr
        simp only [Option.some.injEq] at hr
        subst hr
        exact ⟨by simp, by intro hop; exact ⟨p.pkColumns, by simp, by simp⟩⟩
    · rcases hc : p.columnIdOpt with _ | ⟨kt, cid⟩
      · simp only [writeStep, hnk, hrt, hc, if_true, Bool.false_eq_true, if_false] at hstep
        exact Except.noConfusion hstep
      · by_cases hsys : (kt == KeyEntryType.kSystemColumnId && p.valueType == ValueEntryType.kNullLow) = true
        · -- INSERT row opened; the opening pair is the liveness column
          simp only [writeStep, hnk, hrt, hc, hsys, if_true, Bool.false_eq_true, if_false] at hstep
          rw [addPrimaryKey_nondelete _ (by simp)] at hstep
          dsimp only at hstep
          split at hstep
          · split at hstep
            · exact Except.noConfusion hstep
            · rename_i kt2 cid2 heq2
              simp only [Except.ok.injEq] at hstep
              subst hstep
              refine ⟨hfin2, ?_⟩
              intro r hr
              simp only [Option.some.injEq] at hr
              subst hr
              exact ⟨by simp, by intro hop; simp at hop⟩
            · simp only [Except.ok.injEq] at hstep
              subst hstep
              refine ⟨hfin2, ?_⟩
              intro r hr
              simp only [Option.some.injEq] at hr
              subst hr
              exact ⟨by simp, by intro hop; simp at hop⟩
          · simp only [Except.ok.injEq] at hstep
            subst hstep
            refine ⟨hfin2, ?_⟩
            intro r hr
            simp only [Option.some.injEq] at hr
            subst hr
            exact ⟨by simp, by intro hop; simp at hop⟩
        · -- UPDATE row opened
          simp only [writeStep, hnk, hrt, hc, hsys, if_true, Bool.false_eq_true, if_false] at hstep
          rw [addPrimaryKey_nondelete _ (by simp)] at hstep
          dsimp only at hstep
          split at hstep
          · split at hstep
            · exact Except.noConfusion hstep
            · simp only [Except.ok.injEq] at hstep
              subst hstep
              refine ⟨hfin2, ?_⟩
              intro r hr
              simp only [Option.some.injEq] at hr
              subst hr
              exact ⟨by simp, by intro hop; simp at hop⟩
            · simp only [Except.ok.injEq] at hstep
              subst hstep
              refine ⟨hfin2, ?_⟩
              intro r hr
              simp only [Option.some.injEq] at hr
              subst hr
              exact ⟨by simp, by intro hop; simp at hop⟩
          · simp only [Except.ok.injEq] at hstep
            subst hstep
            refine ⟨hfin2, ?_⟩
            intro r hr
            simp only [Option.some.injEq] at hr
            subst hr
            exact ⟨by simp, by intro hop; simp at hop⟩
  · -- same row: fold into the current record
    simp only [writeStep, hnk, Bool.false_eq_true, if_false] at hstep
    rcases hcc : s.current with _ | rc
    · simp only [hcc] at hstep
      simp only [Except.ok.injEq] at hstep
      subst hstep
      exact ⟨hfin, by intro r hr; simp at hr⟩
    · simp only [hcc] at hstep
      have hrc := hcur rc hcc
      obtain ⟨hrlen, hrdel⟩ := hrc
      split at hstep
      · rcases hc : p.columnIdOpt with _ | ⟨kt, cid⟩
        · simp only [hc] at hstep
          exact Except.noConfusion hstep
        · rcases kt <;> simp only [hc] at hstep <;>
            [(simp only [Except.ok.injEq] at hstep
              subst hstep
              refine ⟨hfin, ?_⟩
              intro r hr
              simp only [Option.some.injEq] at hr
              subst hr
              refine ⟨by simp [hrlen], ?_⟩
              intro hop
              dsimp only at hop
              rename_i hguard
              rw [hop] at hguard
              simp at hguard);
             (simp only [Except.ok.injEq] at hstep
              subst hstep
              exact ⟨hfin, by intro r hr; exact hcur r (hcc.trans hr)⟩);
             (simp only [Except.ok.injEq] at hstep
              subst hstep
              exact ⟨hfin, by intro r hr; exact hcur r (hcc.trans hr)⟩)]
      · simp only [Except.ok.injEq] at hstep
        subst hstep
        exact ⟨hfin, by intro r hr; exact hcur r (hcc.trans hr)⟩

theorem parity_writeGo (sch : Schema) (tn : String) (ct : Nat) (op : OpId)
    (l : List WritePair) (s : WriteState) (s2 : WriteState)
    (h : wparityAll s)
    (hgo : populateWriteRecordGo sch tn ct op s l = Except.ok s2) :
    wparityAll s2 := by
  induction l generalizing s with
  | nil =>
      simp only [populateWriteRecordGo, Except.ok.injEq] at hgo
      subst hgo
      exact h
  | cons a t ih =>
      simp only [populateWriteRecordGo] at hgo
      split at hgo
      · exact Except.noConfusion hgo
      · rename_i s3 hs3
        exact ih _ (parity_writeStep sch tn ct op s a s3 h hs3) hgo

theorem parity_writeRecord (sch : Schema) (tn : String) (ct : Nat) (op : OpId)
    (pairs : List WritePair) (recs : List CDCRecord)
    (hok : populateWriteRecord sch tn ct op pairs = Except.ok recs) :
    ∀ r ∈ recs, tupleParityOk r := by
  simp only [populateWriteRecord] at hok
  split at hok
  · exact Except.noConfusion hok
  · rename_i s2 hs2
    have h2 := parity_writeGo sch tn ct op pairs {} s2
      ⟨by simp, by intro r hr; simp at hr⟩ hs2
    simp only [Except.ok.injEq] at hok
    subst hok
    intro r hr
    rcases List.mem_append.mp hr with hr | hr
    · exact h2.1 r hr
    · rcases hcc : s2.current with _ | rc
      · simp [hcc] at hr
      · simp only [hcc, List.mem_singleton] at hr
        subst hr
        exact h2.2 r hcc

theorem parity_snapshotRecord (sch : Schema) (tn : String) (t : Nat) :
    tupleParityOk (populateSnapshotRecord sch tn t) := by
  simp only [populateSnapshotRecord]
  have key : ∀ (l : List Nat) (r : RowMsg),
      r.oldTuple.length = r.newTuple.length →
      (l.foldl (fun r cid => { r with newTuple := r.newTuple ++ [some cid],
                                      oldTuple := r.oldTuple ++ [none] }) r).oldTuple.length =
      (l.foldl (fun r cid => { r with newTuple := r.newTuple ++ [some cid],
                                      oldTuple := r.oldTuple ++ [none] }) r).newTuple.length ∧
      (l.foldl (fun r cid => { r with newTuple := r.newTuple ++ [some cid],
                                      oldTuple := r.oldTuple ++ [none] }) r).op = r.op := by
    intro l
    induction l with
    | nil => intro r hr; exact ⟨hr, rfl⟩
    | cons a tl ih =>
        intro r hr
        have := ih { r with newTuple := r.newTuple ++ [some a],
                            oldTuple := r.oldTuple ++ [none] } (by simp [hr])
        exact ⟨this.1, this.2⟩
  obtain ⟨h1, h2⟩ := key (List.range sch.numColumns)
    { op := RowOp.READ, tableName := tn, commitTime := t } (by simp)
  refine ⟨h1, ?_⟩
  intro hop
  rw [h2] at hop
  simp at hop

/-- C10. Every row event the producer builds — from the intent path
(`PopulateCDCSDKIntentRecord`), the write-batch path
(`PopulateCDCSDKWriteRecord`) and the snapshot path
(`PopulateCDCSDKSnapshotRecord`) — has `old_tuple` and `new_tuple` of equal
length, because each datum appended to one list is paired with a
placeholder appended to the other; in particular a DELETE record's
`new_tuple` holds one placeholder entry per primary-key column rather than
being empty. -/
theorem tupleLengthParity :
    (∀ (packed : Bool) (sch : Schema) (txnId tn : String) (opId : OpId)
        (intents : List Intent) (r : CDCRecord),
        r ∈ (populateIntentRecord packed sch txnId tn opId intents).records →
        tupleParityOk r) ∧
    (∀ (sch : Schema) (tn : String) (ct : Nat) (opId : OpId)
        (pairs : List WritePair) (recs : List CDCRecord) (r : CDCRecord),
        populateWriteRecord sch tn ct opId pairs = Except.ok recs → r ∈ recs →
        tupleParityOk r) ∧
    (∀ (sch : Schema) (tn : String) (t : Nat),
        tupleParityOk (populateSnapshotRecord sch tn t)) := by
  refine ⟨?_, ?_, ?_⟩
  · intro packed sch txnId tn opId intents r hr
    exact parity_populate packed sch txnId tn opId intents r hr
  · intro sch tn ct opId pairs recs r hok hr
    exact parity_writeRecord sch tn ct opId pairs recs hok r hr
  · intro sch tn t
    exact parity_snapshotRecord sch tn t

/-- Witness for `tupleLengthParity`: the DELETE record produced for a
single root-tombstone intent has `old_tuple = [pk]` and
`new_tuple = [placeholder]`. -/
theorem tupleLengthParity_witness :
    ({ rowMsg := { op := RowOp.DELETE, transactionId := "tx", tableName := "t",
                    newTuple := [none], oldTuple := [some 0] },
       locTerm := 2, locIndex := 9, locWriteId := 1,
       locKey := "r1" } : CDCRecord) ∈
      (populateIntentRecord true
        { numColumns := 2, numKeyColumns := 1, keyColumnIds := [0] } "tx" "t"
        ⟨2, 9⟩ [⟨"A", none, ValueEntryType.kTombstone, 0, 1, 100, 1, "r1"⟩]).records ∧
    tupleParityOk { rowMsg := { op := RowOp.DELETE, transactionId := "tx",
                                tableName := "t", newTuple := [none],
                                oldTuple := [some 0] },
                    locTerm := 2, locIndex := 9, locWriteId := 1,
                    locKey := "r1" } := by
  refine ⟨by decide, ?_⟩
  exact tupleLengthParity.1 true
    { numColumns := 2, numKeyColumns := 1, keyColumnIds := [0] } "tx" "t" ⟨2, 9⟩
    [⟨"A", none, ValueEntryType.kTombstone, 0, 1, 100, 1, "r1"⟩] _ (by decide)

/-! ## C4: event tuple shape -/

theorem canonical_pk (sch : Schema) (i : Intent)
    (hca : canonicalIntent sch i = true) : i.pkColumns = sch.numKeyColumns := by
  simp only [canonicalIntent, Bool.and_eq_true, beq_iff_eq] at hca
  exact hca.1

theorem canonical_root_none (sch : Schema) (i : Intent)
    (hca : canonicalIntent sch i = true) (hrt : isRootTombstone i = true) :
    i.columnIdOpt = none := by
  simp only [canonicalIntent, Bool.and_eq_true, beq_iff_eq] at hca
  obtain ⟨-, hca⟩ := hca
  simp only [isRootTombstone, Bool.and_eq_true, beq_iff_eq] at hrt
  rcases hc : i.columnIdOpt with _ | ⟨kt, cid⟩
  · rfl
  · rcases kt <;> rw [hc] at hca
    · simp only [bne_iff_ne, ne_eq] at hca
      exact absurd hrt.2 hca
    · simp only [Bool.and_eq_true, beq_iff_eq, bne_iff_ne, ne_eq] at hca
      rw [hrt.1] at hca
      exact absurd hca.1 (by decide)
    · simp at hca

theorem sysNull_kind (i : Intent) (hsn : isSystemNull i = true) :
    ∃ x, i.columnIdOpt = some (KeyEntryType.kSystemColumnId, x) := by
  rcases hc : i.columnIdOpt with _ | ⟨kt, cid⟩
  · simp [isSystemNull, hc] at hsn
  · rcases kt
    · simp [isSystemNull, hc] at hsn
    · exact ⟨cid, rfl⟩
    · simp [isSystemNull, hc] at hsn

theorem sysNull_not_tombstone (i : Intent) (hsn : isSystemNull i = true) :
    isRootTombstone i = false := by
  rcases hc : i.columnIdOpt with _ | ⟨kt, cid⟩ <;>
    simp only [isSystemNull, hc] at hsn
  · exact absurd hsn (by simp)
  · rcases kt
    · exact absurd hsn (by simp)
    · simp only [beq_iff_eq] at hsn
      simp [isRootTombstone, hsn]
    · exact absurd hsn (by simp)

theorem shape_flushAndClear_recs (sch : Schema) (p : Bool) (op : OpId) (s : PopState)
    (hrec : ∀ r ∈ s.records, tupleShapeOk sch r) :
    ∀ r ∈ (flushAndClear p op s).records, tupleShapeOk sch r := by
  simp only [flushAndClear, makeNewProtoRecord]
  intro r hr
  split at hr
  · split at hr
    · rename_i hcond
      simp only [List.mem_append, List.mem_singleton] at hr
      rcases hr with hr | hr
      · exact hrec r hr
      · subst hr
        simp only [beq_iff_eq] at hcond
        constructor
        · intro hop
          rw [hcond] at hop
          exact absurd hop (by decide)
        · intro hop
          rw [hcond] at hop
          exact absurd hop (by decide)
    · exact hrec r hr
  · exact hrec r hr

theorem classifyOpen_records (p : Bool) (sch : Schema) (txn : String)
    (s : PopState) (i : Intent) :
    (classifyOpen p sch txn s i).records = s.records := by
  simp only [classifyOpen]
  repeat' split
  all_goals rfl

theorem foldAndEmit_op_eq (p : Bool) (sch : Schema) (tn : String) (op : OpId)
    (c : PopState) (i : Intent) :
    (foldAndEmit p sch tn op c i).rowMsg.op = c.rowMsg.op := by
  simp only [foldAndEmit, makeNewProtoRecord]
  repeat' split
  all_goals rfl

theorem foldAndEmit_recs_cases (p : Bool) (sch : Schema) (tn : String) (op : OpId)
    (c : PopState) (i : Intent) :
    ∀ r ∈ (foldAndEmit p sch tn op c i).records,
      r ∈ c.records ∨ r.rowMsg.op = c.rowMsg.op := by
  simp only [foldAndEmit, makeNewProtoRecord]
  repeat' split
  all_goals intro r hr
  all_goals
    first
      | exact Or.inl hr
      | (dsimp only at hr
         rcases List.mem_append.mp hr with hr | hr
         · exact Or.inl hr
         · simp only [List.mem_singleton] at hr
           subst hr
           exact Or.inr rfl)

theorem foldAndEmit_delete_spec (p : Bool) (sch : Schema) (tn : String) (op : OpId)
    (c : PopState) (i : Intent) (hop : c.rowMsg.op = RowOp.DELETE) :
    (foldAndEmit p sch tn op c i).records =
      c.records ++ [{ rowMsg := { c.rowMsg with tableName := tn },
                      locTerm := op.term, locIndex := op.index,
                      locWriteId := i.writeId, locKey := i.reverseIndexKey }] ∧
    (foldAndEmit p sch tn op c i).rowMsg = { c.rowMsg with tableName := tn } ∧
    (foldAndEmit p sch tn op c i).colCount =
      (if p then sch.numColumns else c.colCount) := by
  have hg : (c.rowMsg.op == RowOp.INSERT || c.rowMsg.op == RowOp.UPDATE) = false := by
    rw [hop]; decide
  simp only [foldAndEmit, makeNewProtoRecord, hg, Bool.false_eq_true, if_false]
  have hd : ((({ c with prevKey := i.primaryKey, prevPhysTime := i.physTime } :
      PopState).rowMsg.op == RowOp.INSERT) = false) := by
    dsimp only; rw [hop]; decide
  have he : (({ c with prevKey := i.primaryKey, prevPhysTime := i.physTime } :
      PopState).rowMsg.op == RowOp.DELETE) = true := by
    dsimp only; rw [hop]; decide
  split
  · simp [hd, he]
  · simp [hd, he]

theorem foldAndEmit_insert_col (p : Bool) (sch : Schema) (tn : String) (op : OpId)
    (c : PopState) (i : Intent) (cid : Nat)
    (hop : c.rowMsg.op = RowOp.INSERT)
    (hcol : i.columnIdOpt = some (KeyEntryType.kColumnId, cid)) :
    ((foldAndEmit p sch tn op c i).rowMsg =
      { c.rowMsg with tableName := tn,
                      newTuple := c.rowMsg.newTuple ++ [some cid],
                      oldTuple := c.rowMsg.oldTuple ++ [none] }) ∧
    (foldAndEmit p sch tn op c i).colCount = c.colCount + 1 ∧
    ((c.colCount + 1 = sch.numColumns →
      (foldAndEmit p sch tn op c i).records = c.records ++
        [{ rowMsg := { c.rowMsg with
                         tableName := tn,
                         newTuple := c.rowMsg.newTuple ++ [some cid],
                         oldTuple := c.rowMsg.oldTuple ++ [none] },
           locTerm := op.term, locIndex := op.index,
           locWriteId := i.writeId, locKey := i.reverseIndexKey }]) ∧
     (¬c.colCount + 1 = sch.numColumns →
      (foldAndEmit p sch tn op c i).records = c.records)) := by
  have hg : (c.rowMsg.op == RowOp.INSERT || c.rowMsg.op == RowOp.UPDATE) = true := by
    rw [hop]; decide
  have hgi : (c.rowMsg.op == RowOp.INSERT) = true := by rw [hop]; decide
  by_cases hsat : c.colCount + 1 = sch.numColumns <;>
    rcases p with _ | _ <;>
  · simp only [foldAndEmit, makeNewProtoRecord, hg, hgi, hcol, if_true, hop]
    simp [hsat, hop]
    try simp [hsat]

theorem foldAndEmit_insert_sys (p : Bool) (sch : Schema) (tn : String) (op : OpId)
    (c : PopState) (i : Intent) (x : Nat)
    (hop : c.rowMsg.op = RowOp.INSERT)
    (hcol : i.columnIdOpt = some (KeyEntryType.kSystemColumnId, x)) :
    ((foldAndEmit p sch tn op c i).rowMsg = { c.rowMsg with tableName := tn }) ∧
    (foldAndEmit p sch tn op c i).colCount = c.colCount + 1 ∧
    ((c.colCount + 1 = sch.numColumns →
      (foldAndEmit p sch tn op c i).records = c.records ++
        [{ rowMsg := { c.rowMsg with tableName := tn },
           locTerm := op.term, locIndex := op.index,
           locWriteId := i.writeId, locKey := i.reverseIndexKey }]) ∧
     (¬c.colCount + 1 = sch.numColumns →
      (foldAndEmit p sch tn op c i).records = c.records)) := by
  have hg : (c.rowMsg.op == RowOp.INSERT || c.rowMsg.op == RowOp.UPDATE) = true := by
    rw [hop]; decide
  have hgi : (c.rowMsg.op == RowOp.INSERT) = true := by rw [hop]; decide
  by_cases hsat : c.colCount + 1 = sch.numColumns <;>
    rcases p with _ | _ <;>
  · simp only [foldAndEmit, makeNewProtoRecord, hg, hgi, hcol, if_true, hop]
    simp [hsat, hop]
    try simp [hsat]

theorem shape_openFold (packed : Bool) (sch : Schema) (txn tn : String) (op : OpId)
    (st1 : PopState) (i : Intent)
    (hrow : st1.rowMsg = {})
    (hrec1 : ∀ r ∈ st1.records, tupleShapeOk sch r)
    (hca : canonicalIntent sch i = true)
    (hk1 : 1 ≤ sch.numKeyColumns) (hk2 : sch.numKeyColumns ≤ sch.numColumns) :
    accumInv sch (foldAndEmit packed sch tn op (classifyOpen packed sch txn st1 i) i) ∧
    ∀ r ∈ (foldAndEmit packed sch tn op (classifyOpen packed sch txn st1 i) i).records,
      tupleShapeOk sch r := by
  have hpk := canonical_pk sch i hca
  by_cases hrt : isRootTombstone i = true
  · -- DELETE
    have hc := canonical_root_none sch i hca hrt
    have hrm : (classifyOpen packed sch txn st1 i).rowMsg =
        { op := RowOp.DELETE, transactionId := txn,
          oldTuple := (List.range sch.numKeyColumns).map some,
          newTuple := List.replicate sch.numKeyColumns none } := by
      simp only [classifyOpen, hrt, if_true, hrow]
      split <;>
        · dsimp only
          rw [addPrimaryKey_delete _ (by rfl)]
          simp [hpk]
    have hcc : (classifyOpen packed sch txn st1 i).colCount =
        (if packed then st1.colCount else sch.numColumns) := by
      simp only [classifyOpen, hrt, if_true]
      split <;> rfl
    have hspec := foldAndEmit_delete_spec packed sch tn op
      (classifyOpen packed sch txn st1 i) i (by rw [hrm])
    obtain ⟨hr1, hr2, hr3⟩ := hspec
    constructor
    · constructor
      · intro hopi
        rw [hr2, hrm] at hopi
        simp at hopi
      · intro _
        rw [hr3]
        rcases packed with _ | _
        · rw [hcc]; simp
        · simp
    · intro r hr
      rw [hr1, classifyOpen_records] at hr
      rcases List.mem_append.mp hr with hr | hr
      · exact hrec1 r hr
      · simp only [List.mem_singleton] at hr
        subst hr
        constructor
        · intro hopi
          rw [hrm] at hopi
          simp at hopi
        · intro _
          rw [hrm]
          exact ⟨rfl, rfl⟩
  · by_cases hsn : isSystemNull i = true
    · -- INSERT opened by the liveness column
      obtain ⟨x, hc⟩ := sysNull_kind i hsn
      have hrm : (classifyOpen packed sch txn st1 i).rowMsg =
          { op := RowOp.INSERT, transactionId := txn,
            newTuple := (List.range sch.numKeyColumns).map some,
            oldTuple := List.replicate sch.numKeyColumns none } := by
        simp only [classifyOpen, hrt, Bool.false_eq_true, if_false, hsn, if_true, hrow]
        try dsimp only
        rw [addPrimaryKey_nondelete _ (by simp)]
        simp [hpk]
      have hcc : (classifyOpen packed sch txn st1 i).colCount =
          sch.numKeyColumns - 1 := by
        simp only [classifyOpen, hrt, Bool.false_eq_true, if_false, hsn, if_true]
      have hspec := foldAndEmit_insert_sys packed sch tn op
        (classifyOpen packed sch txn st1 i) i x (by rw [hrm]) hc
      obtain ⟨hr1, hr2, hr3, hr4⟩ := hspec
      have hlen : ({ (classifyOpen packed sch txn st1 i).rowMsg with
          tableName := tn } : RowMsg).newTuple.length = sch.numKeyColumns := by
        rw [hrm]; simp
      have hcount : (classifyOpen packed sch txn st1 i).colCount + 1 =
          sch.numKeyColumns := by
        rw [hcc]; omega
      constructor
      · constructor
        · intro _
          rw [hr1, hr2, hcount]
          rw [hrm]
          simp
        · intro hopi
          rw [hr1, hrm] at hopi
          simp at hopi
      · intro r hr
        by_cases hsat : (classifyOpen packed sch txn st1 i).colCount + 1 =
            sch.numColumns
        · rw [hr3 hsat, classifyOpen_records] at hr
          rcases List.mem_append.mp hr with hr | hr
          · exact hrec1 r hr
          · simp only [List.mem_singleton] at hr
            subst hr
            constructor
            · intro _
              exact hlen.trans (hcount.symm.trans hsat)
            · intro hopi
              rw [hrm] at hopi
              simp at hopi
        · rw [hr4 hsat, classifyOpen_records] at hr
          exact hrec1 r hr
    · -- UPDATE opened
      have hop2 : (classifyOpen packed sch txn st1 i).rowMsg.op = RowOp.UPDATE := by
        simp only [classifyOpen, hrt, Bool.false_eq_true, if_false, hsn]
        rw [addPrimaryKey_op]
        split <;> rfl
      constructor
      · constructor
        · intro hopi
          rw [foldAndEmit_op_eq, hop2] at hopi
          exact absurd hopi (by decide)
        · intro hopi
          rw [foldAndEmit_op_eq, hop2] at hopi
          exact absurd hopi (by decide)
      · intro r hr
        rcases foldAndEmit_recs_cases packed sch tn op
            (classifyOpen packed sch txn st1 i) i r hr with hr | hr
        · rw [classifyOpen_records] at hr
          exact hrec1 r hr
        · rw [hop2] at hr
          constructor
          · intro hopi
            rw [hopi] at hr
            exact absurd hr (by decide)
          · intro hopi
            rw [hopi] at hr
            exact absurd hr (by decide)


theorem foldAndEmit_prev (p : Bool) (sch : Schema) (tn : String) (op : OpId)
    (c : PopState) (i : Intent) :
    (foldAndEmit p sch tn op c i).prevKey = i.primaryKey ∧
    (foldAndEmit p sch tn op c i).prevPhysTime = i.physTime := by
  simp only [foldAndEmit, makeNewProtoRecord]
  repeat' split
  all_goals exact ⟨rfl, rfl⟩

theorem shape_noOpen (packed : Bool) (sch : Schema) (tn : String) (op : OpId)
    (s : PopState) (i : Intent)
    (hca : canonicalIntent sch i = true)
    (hneed : newCdcRecordNeeded packed sch s.prevKey s.colCount s.prevPhysTime i = false)
    (hsep : (isSystemNull i || (!packed && isRootTombstone i)) = true →
      ((i.primaryKey != s.prevKey) || (packed && (i.physTime != s.prevPhysTime))) = true)
    (hinv : accumInv sch s) (hrec : ∀ r ∈ s.records, tupleShapeOk sch r) :
    accumInv sch (foldAndEmit packed sch tn op s i) ∧
    ∀ r ∈ (foldAndEmit packed sch tn op s i).records, tupleShapeOk sch r := by
  have hcclt : s.colCount < sch.numColumns := by
    by_contra hge
    push_neg at hge
    have hx : newCdcRecordNeeded packed sch s.prevKey s.colCount s.prevPhysTime i = true := by
      simp only [newCdcRecordNeeded]
      rcases packed with _ | _ <;> simp [hge]
    rw [hneed] at hx
    exact Bool.noConfusion hx
  have hpkEq : s.prevKey = i.primaryKey := by
    by_contra hne
    have hx : newCdcRecordNeeded packed sch s.prevKey s.colCount s.prevPhysTime i = true := by
      simp only [newCdcRecordNeeded]
      rcases packed with _ | _ <;> simp [hne]
    rw [hneed] at hx
    exact Bool.noConfusion hx
  have hpt : packed = true → s.prevPhysTime = i.physTime := by
    intro hp
    subst hp
    by_contra hne
    have hx : newCdcRecordNeeded true sch s.prevKey s.colCount s.prevPhysTime i = true := by
      simp only [newCdcRecordNeeded]
      simp [hne]
    rw [hneed] at hx
    exact Bool.noConfusion hx
  have hrt : packed = true → isRootTombstone i = false := by
    intro hp
    subst hp
    by_contra hne
    simp only [Bool.not_eq_false] at hne
    have hx : newCdcRecordNeeded true sch s.prevKey s.colCount s.prevPhysTime i = true := by
      simp only [newCdcRecordNeeded]
      simp [hne]
    rw [hneed] at hx
    exact Bool.noConfusion hx
  -- a row-starting intent cannot fold in here
  have hnotsep : (isSystemNull i || (!packed && isRootTombstone i)) = false := by
    by_contra hne
    simp only [Bool.not_eq_false] at hne
    have := hsep hne
    rcases packed with _ | _
    · simp only [Bool.false_and, Bool.or_false, bne_iff_ne, ne_eq] at this
      exact this hpkEq.symm
    · simp only [Bool.true_and, Bool.or_eq_true, bne_iff_ne, ne_eq] at this
      rcases this with h | h
      · exact h hpkEq.symm
      · exact h (hpt rfl).symm
  have hsn : isSystemNull i = false := by
    rcases hx : isSystemNull i
    · rfl
    · rw [hx] at hnotsep
      simp at hnotsep
  rcases hso : s.rowMsg.op with _ | _ | _ | _ | _ | _ | _ | _ | _
  case DELETE =>
    exact absurd (hinv.2 hso) (by omega)
  case INSERT =>
    -- the intent must be a regular-column intent
    have hccol : ∃ cid, i.columnIdOpt = some (KeyEntryType.kColumnId, cid) := by
      rcases hc : i.columnIdOpt with _ | ⟨kt, cid⟩
      · -- no suffix: canonical forces a root tombstone
        have hroot : isRootTombstone i = true := by
          simp only [canonicalIntent, Bool.and_eq_true] at hca
          obtain ⟨-, hca⟩ := hca
          rw [hc] at hca
          exact hca
        rcases packed with _ | _
        · rw [hroot] at hnotsep
          simp at hnotsep
        · rw [hrt rfl] at hroot
          exact Bool.noConfusion hroot
      · rcases kt
        · exact ⟨cid, rfl⟩
        · -- system column: canonical forces NullLow, so isSystemNull holds
          have : isSystemNull i = true := by
            simp only [canonicalIntent, Bool.and_eq_true] at hca
            obtain ⟨-, hca⟩ := hca
            rw [hc] at hca
            simp only [Bool.and_eq_true] at hca
            simp [isSystemNull, hc, hca.1]
          rw [this] at hsn
          exact Bool.noConfusion hsn
        · simp only [canonicalIntent, Bool.and_eq_true] at hca
          obtain ⟨-, hca⟩ := hca
          rw [hc] at hca
          simp at hca
    obtain ⟨cid, hc⟩ := hccol
    have hspec := foldAndEmit_insert_col packed sch tn op s i cid hso hc
    obtain ⟨hr1, hr2, hr3, hr4⟩ := hspec
    have hlen0 := hinv.1 hso
    constructor
    · constructor
      · intro _
        rw [hr1, hr2]
        simp [hlen0]
      · intro hopi
        rw [hr1] at hopi
        simp at hopi
        rw [hso] at hopi
        exact absurd hopi (by decide)
    · intro r hr
      by_cases hsat : s.colCount + 1 = sch.numColumns
      · rw [hr3 hsat] at hr
        rcases List.mem_append.mp hr with hr | hr
        · exact hrec r hr
        · simp only [List.mem_singleton] at hr
          subst hr
          constructor
          · intro _
            simp only []
            simp [hlen0, hsat]
          · intro hopi
            simp only [] at hopi
            rw [hso] at hopi
            exact absurd hopi (by decide)
      · rw [hr4 hsat] at hr
        exact hrec r hr
  all_goals
    -- the current operation is not INSERT or DELETE: both clauses are vacuous
    constructor
  all_goals
    try
      (constructor <;>
        · intro hopi
          rw [foldAndEmit_op_eq, hso] at hopi
          exact absurd hopi (by decide))
  all_goals
    intro r hr
    rcases foldAndEmit_recs_cases packed sch tn op s i r hr with hr | hr
    · exact hrec r hr
    · rw [hso] at hr
      constructor <;>
        · intro hopi
          rw [hopi] at hr
          exact absurd hr (by decide)

theorem intentStep_prev (packed : Bool) (sch : Schema) (txn tn : String)
    (op : OpId) (s : PopState) (i : Intent) :
    (isKeyColumnIntent sch i = true →
      (intentStep packed sch txn tn op s i).prevKey = s.prevKey ∧
      (intentStep packed sch txn tn op s i).prevPhysTime = s.prevPhysTime) ∧
    (isKeyColumnIntent sch i = false →
      (intentStep packed sch txn tn op s i).prevKey = i.primaryKey ∧
      (intentStep packed sch txn tn op s i).prevPhysTime = i.physTime) := by
  constructor
  · intro hkc
    simp only [intentStep, hkc, if_true]
    constructor <;> trivial
  · intro hkc
    simp only [intentStep, hkc, Bool.false_eq_true, if_false]
    split
    · exact foldAndEmit_prev packed sch tn op _ i
    · exact foldAndEmit_prev packed sch tn op _ i

theorem shape_intentStep (packed : Bool) (sch : Schema) (txn tn : String)
    (op : OpId) (s : PopState) (i : Intent)
    (hca : canonicalIntent sch i = true)
    (hk1 : 1 ≤ sch.numKeyColumns) (hk2 : sch.numKeyColumns ≤ sch.numColumns)
    (hsep : isKeyColumnIntent sch i = false →
      (isSystemNull i || (!packed && isRootTombstone i)) = true →
      ((i.primaryKey != s.prevKey) || (packed && (i.physTime != s.prevPhysTime))) = true)
    (hinv : accumInv sch s) (hrec : ∀ r ∈ s.records, tupleShapeOk sch r) :
    accumInv sch (intentStep packed sch txn tn op s i) ∧
    ∀ r ∈ (intentStep packed sch txn tn op s i).records, tupleShapeOk sch r := by
  by_cases hkc : isKeyColumnIntent sch i = true
  · simp only [intentStep, hkc, if_true]
    exact ⟨hinv, hrec⟩
  · simp only [Bool.not_eq_true] at hkc
    simp only [intentStep, hkc, Bool.false_eq_true, if_false]
    split
    · exact shape_openFold packed sch txn tn op (flushAndClear packed op s) i
        (flushAndClear_rowMsg packed op s)
        (shape_flushAndClear_recs sch packed op s hrec) hca hk1 hk2
    · rename_i hneed
      simp only [Bool.not_eq_true] at hneed
      exact shape_noOpen packed sch tn op s i hca hneed (hsep hkc) hinv hrec

theorem shape_fold (packed : Bool) (sch : Schema) (txn tn : String) (op : OpId)
    (hk1 : 1 ≤ sch.numKeyColumns) (hk2 : sch.numKeyColumns ≤ sch.numColumns) :
    ∀ (l : List Intent) (s : PopState),
    (∀ i ∈ l, canonicalIntent sch i = true) →
    wellSeparated packed sch s.prevKey s.prevPhysTime l = true →
    accumInv sch s → (∀ r ∈ s.records, tupleShapeOk sch r) →
    accumInv sch (l.foldl (intentStep packed sch txn tn op) s) ∧
    ∀ r ∈ (l.foldl (intentStep packed sch txn tn op) s).records,
      tupleShapeOk sch r := by
  intro l
  induction l with
  | nil => intro s _ _ hinv hrec; exact ⟨hinv, hrec⟩
  | cons a t ih =>
      intro s hca hws hinv hrec
      have hcaa := hca a (by simp)
      have hcat : ∀ i ∈ t, canonicalIntent sch i = true := by
        intro j hj; exact hca j (List.mem_cons_of_mem a hj)
      rw [List.foldl_cons]
      by_cases hkc : isKeyColumnIntent sch a = true
      · -- skipped intent: separation state unchanged
        have hws2 : wellSeparated packed sch
            (intentStep packed sch txn tn op s a).prevKey
            (intentStep packed sch txn tn op s a).prevPhysTime t = true := by
          obtain ⟨h1, h2⟩ := (intentStep_prev packed sch txn tn op s a).1 hkc
          rw [h1, h2]
          simp only [wellSeparated, hkc, if_true] at hws
          exact hws
        have hstep := shape_intentStep packed sch txn tn op s a hcaa hk1 hk2
          (by intro hkf; rw [hkf] at hkc; exact absurd hkc (by decide))
          hinv hrec
        exact ih _ hcat hws2 hstep.1 hstep.2
      · simp only [Bool.not_eq_true] at hkc
        have hws0 : ((if (isSystemNull a || (!packed && isRootTombstone a)) = true then
            ((a.primaryKey != s.prevKey) || (packed && (a.physTime != s.prevPhysTime)))
            else true) &&
            wellSeparated packed sch a.primaryKey a.physTime t) = true := by
          simp only [wellSeparated, hkc, Bool.false_eq_true, if_false] at hws
          exact hws
        simp only [Bool.and_eq_true] at hws0
        have hws2 : wellSeparated packed sch
            (intentStep packed sch txn tn op s a).prevKey
            (intentStep packed sch txn tn op s a).prevPhysTime t = true := by
          obtain ⟨h1, h2⟩ := (intentStep_prev packed sch txn tn op s a).2 hkc
          rw [h1, h2]
          exact hws0.2
        have hsep : isKeyColumnIntent sch a = false →
            (isSystemNull a || (!packed && isRootTombstone a)) = true →
            ((a.primaryKey != s.prevKey) || (packed && (a.physTime != s.prevPhysTime))) = true := by
          intro _ hx
          have := hws0.1
          rw [hx] at this
          simpa using this
        have hstep := shape_intentStep packed sch txn tn op s a hcaa hk1 hk2
          hsep hinv hrec
        exact ih _ hcat hws2 hstep.1 hstep.2

theorem shape_populate (packed : Bool) (sch : Schema) (txn tn : String)
    (op : OpId) (intents : List Intent)
    (hca : ∀ i ∈ intents, canonicalIntent sch i = true)
    (hws : wellSeparated packed sch "" 0 intents = true)
    (hk1 : 1 ≤ sch.numKeyColumns) (hk2 : sch.numKeyColumns ≤ sch.numColumns) :
    ∀ r ∈ (populateIntentRecord packed sch txn tn op intents).records,
      tupleShapeOk sch r := by
  have h0inv : accumInv sch ({} : PopState) := by
    constructor <;> · intro h; exact absurd h (by decide)
  have hf := shape_fold packed sch txn tn op hk1 hk2 intents {} hca hws h0inv
    (by intro r hr; simp at hr)
  obtain ⟨hinv, hrecs⟩ := hf
  simp only [populateIntentRecord]
  split
  · rename_i hcond
    simp only [makeNewProtoRecord]
    intro r hr
    simp only [List.mem_append, List.mem_singleton] at hr
    rcases hr with hr | hr
    · exact hrecs r hr
    · subst hr
      simp only [Bool.and_eq_true, beq_iff_eq] at hcond
      constructor
      · intro hopi
        dsimp only at hopi
        rw [hcond.2] at hopi
        exact absurd hopi (by decide)
      · intro hopi
        dsimp only at hopi
        rw [hcond.2] at hopi
        exact absurd hopi (by decide)
  · exact hrecs

/-- C4, counterexample. The claim states that a DELETE record has an empty
`new_tuple`; but the DELETE record built for a root-tombstone intent
carries one placeholder entry on `new_tuple` per primary-key column
(`AddTuple` appends to both lists), so its `new_tuple` is `[none]`, not
`[]`. -/
theorem eventTupleShape_counterexample :
    (populateIntentRecord true
        { numColumns := 2, numKeyColumns := 1, keyColumnIds := [0] } "tx" "t"
        ⟨2, 9⟩ [⟨"A", none, ValueEntryType.kTombstone, 0, 1, 100, 1, "r1"⟩]).records =
      [{ rowMsg := { op := RowOp.DELETE, transactionId := "tx", tableName := "t",
                     newTuple := [none], oldTuple := [some 0] },
         locTerm := 2, locIndex := 9, locWriteId := 1, locKey := "r1" }] ∧
    ([none] : List Datum) ≠ [] := by
  exact ⟨by decide, by decide⟩

/-- C4, amended. Over a batch of canonically decoded intents whose row
groups are separated (`wellSeparated`), every INSERT record emitted by
`PopulateCDCSDKIntentRecord` has `new_tuple` of length exactly
`schema.num_columns()` (primary-key columns from `AddPrimaryKey` plus one
entry per regular column, held back until the column count saturates), and
every DELETE record has its `old_tuple` populated with the row's
primary-key columns and a `new_tuple` of exactly one placeholder entry per
primary-key column — not an empty list. -/
theorem eventTupleShape_amended (packed : Bool) (sch : Schema)
    (txn tn : String) (op : OpId) (intents : List Intent)
    (hca : ∀ i ∈ intents, canonicalIntent sch i = true)
    (hws : wellSeparated packed sch "" 0 intents = true)
    (hk1 : 1 ≤ sch.numKeyColumns) (hk2 : sch.numKeyColumns ≤ sch.numColumns) :
    ∀ r ∈ (populateIntentRecord packed sch txn tn op intents).records,
      tupleShapeOk sch r := by
  exact shape_populate packed sch txn tn op intents hca hws hk1 hk2

/-- Witness for `eventTupleShape_amended`: a liveness intent followed by a
regular-column intent emits an INSERT whose `new_tuple` has the schema
width. -/
theorem eventTupleShape_amended_witness :
    ({ rowMsg := { op := RowOp.INSERT, transactionId := "tx", tableName := "t",
                   newTuple := [some 0, some 1], oldTuple := [none, none] },
       locTerm := 2, locIndex := 9, locWriteId := 3,
       locKey := "ra" } : CDCRecord) ∈
      (populateIntentRecord true
        { numColumns := 2, numKeyColumns := 1, keyColumnIds := [0] } "tx" "t"
        ⟨2, 9⟩
        [⟨"P", some (KeyEntryType.kSystemColumnId, 9), ValueEntryType.kNullLow, 1, 1, 50, 0, "rl"⟩,
         ⟨"P", some (KeyEntryType.kColumnId, 1), ValueEntryType.kOtherValue, 1, 1, 50, 3, "ra"⟩]).records ∧
    tupleShapeOk { numColumns := 2, numKeyColumns := 1, keyColumnIds := [0] }
      { rowMsg := { op := RowOp.INSERT, transactionId := "tx", tableName := "t",
                    newTuple := [some 0, some 1], oldTuple := [none, none] },
        locTerm := 2, locIndex := 9, locWriteId := 3, locKey := "ra" } := by
  refine ⟨by decide, ?_⟩
  exact eventTupleShape_amended true
    { numColumns := 2, numKeyColumns := 1, keyColumnIds := [0] } "tx" "t" ⟨2, 9⟩
    [⟨"P", some (KeyEntryType.kSystemColumnId, 9), ValueEntryType.kNullLow, 1, 1, 50, 0, "rl"⟩,
     ⟨"P", some (KeyEntryType.kColumnId, 1), ValueEntryType.kOtherValue, 1, 1, 50, 3, "ra"⟩]
    (by decide) (by decide) (by decide) (by decide) _ (by decide)

/-! ## C2: transaction bracketing and resume cursor -/

theorem foldAndEmit_pair (p : Bool) (sch : Schema) (tn : String) (op : OpId)
    (c : PopState) (i : Intent) :
    ((foldAndEmit p sch tn op c i).outWriteId = c.outWriteId ∧
     (foldAndEmit p sch tn op c i).outRevKey = c.outRevKey ∧
     (foldAndEmit p sch tn op c i).records = c.records ∧
     (c.rowMsg.op = RowOp.UPDATE → p = true) ∧
     ¬c.rowMsg.op = RowOp.DELETE) ∨
    (∃ rec, (foldAndEmit p sch tn op c i).records = c.records ++ [rec] ∧
      (foldAndEmit p sch tn op c i).outWriteId = rec.locWriteId ∧
      (foldAndEmit p sch tn op c i).outRevKey = rec.locKey) := by
  simp only [foldAndEmit, makeNewProtoRecord]
  repeat' split
  all_goals
    first
      | (right; exact ⟨_, rfl, rfl, rfl⟩)
      | (left
         refine ⟨rfl, rfl, rfl, ?_, ?_⟩
         · intro hu
           simp_all
         · intro hd
           simp_all)

example (l : List CDCRecord) (a : CDCRecord) : (l ++ [a]).getLast? = some a := by
  exact List.getLast?_concat l

theorem loc_fold_general (p : Bool) (sch : Schema) (tn : String) (op : OpId)
    (L : List Intent) (c : PopState) (i : Intent)
    (h : c.rowMsg.op = RowOp.DELETE ∨ c.rowMsg.op = RowOp.UPDATE ∨
      resumeLocatorOk sch L c) :
    resumeLocatorOk sch L (foldAndEmit p sch tn op c i) ∨
      (p = true ∧ (foldAndEmit p sch tn op c i).rowMsg.op = RowOp.UPDATE) := by
  rcases foldAndEmit_pair p sch tn op c i with ⟨h1, h2, h3, h4, h5⟩ | ⟨rec, h1, h2, h3⟩
  · rcases h with h | h | h
    · exact absurd h h5
    · right
      exact ⟨h4 h, by rw [foldAndEmit_op_eq]; exact h⟩
    · left
      rcases h with ⟨ha, hb, hc⟩ | ⟨r, ha, hb, hc⟩ | ⟨j, hj, ha, hb, hc⟩
      · exact Or.inl ⟨by rw [h3, ha], by rw [h1, hb], by rw [h2, hc]⟩
      · exact Or.inr (Or.inl ⟨r, by rw [h3]; exact ha, by rw [h1, hb], by rw [h2, hc]⟩)
      · exact Or.inr (Or.inr ⟨j, hj, ha, by rw [h1, hb], by rw [h2, hc]⟩)
  · left
    exact Or.inr (Or.inl ⟨rec, by rw [h1]; exact List.getLast?_concat _, h2, h3⟩)

theorem loc_flushAndClear (p : Bool) (op : OpId) (sch : Schema) (L : List Intent)
    (s : PopState)
    (h : resumeLocatorOk sch L s ∨ (p = true ∧ s.rowMsg.op = RowOp.UPDATE)) :
    resumeLocatorOk sch L (flushAndClear p op s) := by
  simp only [flushAndClear, makeNewProtoRecord]
  split
  · split
    · -- pending UPDATE flushed with the previous intent's locator
      exact Or.inr (Or.inl ⟨_, List.getLast?_concat _, rfl, rfl⟩)
    · rename_i hp hcond
      rcases h with h | h
      · rcases h with ⟨ha, hb, hc⟩ | ⟨r, ha, hb, hc⟩ | ⟨j, hj, ha, hb, hc⟩
        · exact Or.inl ⟨ha, hb, hc⟩
        · exact Or.inr (Or.inl ⟨r, ha, hb, hc⟩)
        · exact Or.inr (Or.inr ⟨j, hj, ha, hb, hc⟩)
      · exfalso
        rw [h.2] at hcond
        simp at hcond
  · rename_i hp
    rcases h with h | h
    · rcases h with ⟨ha, hb, hc⟩ | ⟨r, ha, hb, hc⟩ | ⟨j, hj, ha, hb, hc⟩
      · exact Or.inl ⟨ha, hb, hc⟩
      · exact Or.inr (Or.inl ⟨r, ha, hb, hc⟩)
      · exact Or.inr (Or.inr ⟨j, hj, ha, hb, hc⟩)
    · exact absurd h.1 hp

theorem classifyOpen_cases (p : Bool) (sch : Schema) (txn : String)
    (s : PopState) (i : Intent) :
    (classifyOpen p sch txn s i).rowMsg.op = RowOp.DELETE ∨
    (classifyOpen p sch txn s i).rowMsg.op = RowOp.UPDATE ∨
    ((classifyOpen p sch txn s i).outWriteId = s.outWriteId ∧
     (classifyOpen p sch txn s i).outRevKey = s.outRevKey) := by
  simp only [classifyOpen]
  split
  · left
    rw [addPrimaryKey_op]
    split <;> rfl
  · split
    · right; right
      exact ⟨rfl, rfl⟩
    · right; left
      rw [addPrimaryKey_op]
      split <;> rfl

theorem loc_intentStep (p : Bool) (sch : Schema) (txn tn : String) (op : OpId)
    (L : List Intent) (s : PopState) (i : Intent) (hmem : i ∈ L)
    (h : resumeLocatorOk sch L s ∨ (p = true ∧ s.rowMsg.op = RowOp.UPDATE)) :
    resumeLocatorOk sch L (intentStep p sch txn tn op s i) ∨
      (p = true ∧ (intentStep p sch txn tn op s i).rowMsg.op = RowOp.UPDATE) := by
  by_cases hkc : isKeyColumnIntent sch i = true
  · left
    simp only [intentStep, hkc, if_true]
    exact Or.inr (Or.inr ⟨i, hmem, hkc, rfl, rfl⟩)
  · simp only [Bool.not_eq_true] at hkc
    simp only [intentStep, hkc, Bool.false_eq_true, if_false]
    split
    · have hfl := loc_flushAndClear p op sch L s h
      rcases classifyOpen_cases p sch txn (flushAndClear p op s) i with
        hD | hU | ⟨hpw, hpr⟩
      · exact loc_fold_general p sch tn op L _ i (Or.inl hD)
      · exact loc_fold_general p sch tn op L _ i (Or.inr (Or.inl hU))
      · apply loc_fold_general p sch tn op L _ i
        right; right
        rcases hfl with ⟨ha, hb, hc⟩ | ⟨r, ha, hb, hc⟩ | ⟨j, hj, ha, hb, hc⟩
        · exact Or.inl ⟨by rw [classifyOpen_records]; exact ha,
            by rw [hpw]; exact hb, by rw [hpr]; exact hc⟩
        · exact Or.inr (Or.inl ⟨r, by rw [classifyOpen_records]; exact ha,
            by rw [hpw]; exact hb, by rw [hpr]; exact hc⟩)
        · exact Or.inr (Or.inr ⟨j, hj, ha, by rw [hpw]; exact hb,
            by rw [hpr]; exact hc⟩)
    · apply loc_fold_general p sch tn op L s i
      rcases h with h | h
      · exact Or.inr (Or.inr h)
      · exact Or.inr (Or.inl h.2)

theorem loc_fold (p : Bool) (sch : Schema) (txn tn : String) (op : OpId)
    (L : List Intent) :
    ∀ (l : List Intent) (s : PopState), (∀ i ∈ l, i ∈ L) →
    (resumeLocatorOk sch L s ∨ (p = true ∧ s.rowMsg.op = RowOp.UPDATE)) →
    (resumeLocatorOk sch L (l.foldl (intentStep p sch txn tn op) s) ∨
      (p = true ∧ (l.foldl (intentStep p sch txn tn op) s).rowMsg.op = RowOp.UPDATE)) := by
  intro l
  induction l with
  | nil => intro s _ h; exact h
  | cons a t ih =>
      intro s hsub h
      rw [List.foldl_cons]
      exact ih _ (fun j hj => hsub j (List.mem_cons_of_mem a hj))
        (loc_intentStep p sch txn tn op L s a (hsub a (by simp)) h)

theorem loc_populate (p : Bool) (sch : Schema) (txn tn : String) (op : OpId)
    (intents : List Intent) :
    resumeLocatorOk sch intents (populateIntentRecord p sch txn tn op intents) := by
  have h0 : resumeLocatorOk sch intents ({} : PopState) ∨
      (p = true ∧ ({} : PopState).rowMsg.op = RowOp.UPDATE) :=
    Or.inl (Or.inl ⟨rfl, rfl, rfl⟩)
  have hf := loc_fold p sch txn tn op intents intents {} (fun j hj => hj) h0
  simp only [populateIntentRecord]
  split
  · simp only [makeNewProtoRecord]
    exact Or.inr (Or.inl ⟨_, List.getLast?_concat _, rfl, rfl⟩)
  · rename_i hcond
    rcases hf with hf | hf
    · exact hf
    · exfalso
      rw [hf.2] at hcond
      rw [hf.1] at hcond
      simp at hcond

theorem classifyOpen_op (p : Bool) (sch : Schema) (txn : String)
    (s : PopState) (i : Intent) :
    (classifyOpen p sch txn s i).rowMsg.op = RowOp.DELETE ∨
    (classifyOpen p sch txn s i).rowMsg.op = RowOp.INSERT ∨
    (classifyOpen p sch txn s i).rowMsg.op = RowOp.UPDATE := by
  simp only [classifyOpen]
  split
  · left
    rw [addPrimaryKey_op]
    split <;> rfl
  · split
    · right; left
      exact addPrimaryKey_op _ _
    · right; right
      rw [addPrimaryKey_op]
      split <;> rfl

theorem markers_flushAndClear (p : Bool) (op : OpId) (s : PopState)
    (hrec : ∀ r ∈ s.records, r.rowMsg.op ≠ RowOp.BEGIN ∧ r.rowMsg.op ≠ RowOp.COMMIT) :
    ∀ r ∈ (flushAndClear p op s).records,
      r.rowMsg.op ≠ RowOp.BEGIN ∧ r.rowMsg.op ≠ RowOp.COMMIT := by
  simp only [flushAndClear, makeNewProtoRecord]
  intro r hr
  split at hr
  · split at hr
    · rename_i hcond
      simp only [List.mem_append, List.mem_singleton] at hr
      rcases hr with hr | hr
      · exact hrec r hr
      · subst hr
        simp only [beq_iff_eq] at hcond
        constructor <;>
          · intro hx
            rw [hcond] at hx
            exact absurd hx (by decide)
    · exact hrec r hr
  · exact hrec r hr

theorem markers_intentStep (p : Bool) (sch : Schema) (txn tn : String)
    (op : OpId) (s : PopState) (i : Intent)
    (hcur : s.rowMsg.op ≠ RowOp.BEGIN ∧ s.rowMsg.op ≠ RowOp.COMMIT)
    (hrec : ∀ r ∈ s.records, r.rowMsg.op ≠ RowOp.BEGIN ∧ r.rowMsg.op ≠ RowOp.COMMIT) :
    ((intentStep p sch txn tn op s i).rowMsg.op ≠ RowOp.BEGIN ∧
     (intentStep p sch txn tn op s i).rowMsg.op ≠ RowOp.COMMIT) ∧
    ∀ r ∈ (intentStep p sch txn tn op s i).records,
      r.rowMsg.op ≠ RowOp.BEGIN ∧ r.rowMsg.op ≠ RowOp.COMMIT := by
  by_cases hkc : isKeyColumnIntent sch i = true
  · simp only [intentStep, hkc, if_true]
    exact ⟨hcur, hrec⟩
  · simp only [Bool.not_eq_true] at hkc
    simp only [intentStep, hkc, Bool.false_eq_true, if_false]
    have hcore : ∀ (c : PopState),
        (c.rowMsg.op ≠ RowOp.BEGIN ∧ c.rowMsg.op ≠ RowOp.COMMIT) →
        (∀ r ∈ c.records, r.rowMsg.op ≠ RowOp.BEGIN ∧ r.rowMsg.op ≠ RowOp.COMMIT) →
        ((foldAndEmit p sch tn op c i).rowMsg.op ≠ RowOp.BEGIN ∧
         (foldAndEmit p sch tn op c i).rowMsg.op ≠ RowOp.COMMIT) ∧
        ∀ r ∈ (foldAndEmit p sch tn op c i).records,
          r.rowMsg.op ≠ RowOp.BEGIN ∧ r.rowMsg.op ≠ RowOp.COMMIT := by
      intro c hc hcr
      constructor
      · rw [foldAndEmit_op_eq]
        exact hc
      · intro r hr
        rcases foldAndEmit_recs_cases p sch tn op c i r hr with hr | hr
        · exact hcr r hr
        · rw [hr]
          exact hc
    split
    · apply hcore
      · rcases classifyOpen_op p sch txn (flushAndClear p op s) i with hx | hx | hx <;>
          · rw [hx]
            exact ⟨by decide, by decide⟩
      · intro r hr
        rw [classifyOpen_records] at hr
        exact markers_flushAndClear p op s hrec r hr
    · exact hcore s hcur hrec

theorem markers_populate (p : Bool) (sch : Schema) (txn tn : String)
    (op : OpId) (intents : List Intent) :
    ∀ r ∈ (populateIntentRecord p sch txn tn op intents).records,
      r.rowMsg.op ≠ RowOp.BEGIN ∧ r.rowMsg.op ≠ RowOp.COMMIT := by
  have hf : ∀ (l : List Intent) (s : PopState),
      (s.rowMsg.op ≠ RowOp.BEGIN ∧ s.rowMsg.op ≠ RowOp.COMMIT) →
      (∀ r ∈ s.records, r.rowMsg.op ≠ RowOp.BEGIN ∧ r.rowMsg.op ≠ RowOp.COMMIT) →
      ((l.foldl (intentStep p sch txn tn op) s).rowMsg.op ≠ RowOp.BEGIN ∧
       (l.foldl (intentStep p sch txn tn op) s).rowMsg.op ≠ RowOp.COMMIT) ∧
      ∀ r ∈ (l.foldl (intentStep p sch txn tn op) s).records,
        r.rowMsg.op ≠ RowOp.BEGIN ∧ r.rowMsg.op ≠ RowOp.COMMIT := by
    intro l
    induction l with
    | nil => intro s hc hr; exact ⟨hc, hr⟩
    | cons a t ih =>
        intro s hc hr
        rw [List.foldl_cons]
        have := markers_intentStep p sch txn tn op s a hc hr
        exact ih _ this.1 this.2
  obtain ⟨hcur, hrecs⟩ := hf intents {} ⟨by decide, by decide⟩ (by intro r hr; simp at hr)
  simp only [populateIntentRecord]
  split
  · rename_i hcond
    simp only [makeNewProtoRecord]
    intro r hr
    simp only [List.mem_append, List.mem_singleton] at hr
    rcases hr with hr | hr
    · exact hrecs r hr
    · subst hr
      simp only [Bool.and_eq_true, beq_iff_eq] at hcond
      constructor <;>
        · intro hx
          dsimp only at hx
          rw [hcond.2] at hx
          exact absurd hx (by decide)
  · exact hrecs

/-- C2, amended. A BEGIN record is appended iff the incoming stream state
has an empty key and write id 0; when the intent store reports the
transaction fully consumed (`outState` empty/0), a COMMIT record is
appended last and the checkpoint is the apply record's (term, index) with
empty key and write id 0; when intents remain, no COMMIT is appended and
the checkpoint's key and write id are the intent loop's resume locator,
which is either untouched, the locator of the last emitted record, or the
locator of a skipped primary-key-column intent of the batch
(`resumeLocatorOk`). -/
theorem transactionBracketing_amended
    (packed : Bool) (opId : OpId) (txnId tableName : String) (latestCk : OpId)
    (ts : Schema) (tv : Nat) (cat : Option (Schema × Nat)) (inState : StreamState)
    (intents : List Intent) (outState : StreamState) (cs : Option Schema) (cv : Nat)
    (ck : CheckpointPB) (out : List CDCRecord × CheckpointPB × Option Schema × Nat)
    (hok : processIntents packed opId txnId tableName latestCk ts tv cat inState
      intents outState cs cv ck = Except.ok out) :
    ((∃ r ∈ out.1, r.rowMsg.op = RowOp.BEGIN) ↔
      (inState.key = "" ∧ inState.writeId = 0)) ∧
    (outState.key = "" ∧ outState.writeId = 0 →
      out.1.getLast? = some (commitRecord opId txnId tableName) ∧
      out.2.1.term = opId.term ∧ out.2.1.index = opId.index ∧
      out.2.1.key = "" ∧ out.2.1.writeId = 0) ∧
    (¬(outState.key = "" ∧ outState.writeId = 0) →
      (∀ r ∈ out.1, r.rowMsg.op ≠ RowOp.COMMIT) ∧
      out.2.1.term = opId.term ∧ out.2.1.index = opId.index ∧
      (out.2.1.key = (populateIntentRecord packed
          (resolveIntentSchema cs cv cat ts tv (intents.length != 0)).1
          txnId tableName opId intents).outRevKey ∧
       out.2.1.writeId = (populateIntentRecord packed
          (resolveIntentSchema cs cv cat ts tv (intents.length != 0)).1
          txnId tableName opId intents).outWriteId ∧
       resumeLocatorOk (resolveIntentSchema cs cv cat ts tv (intents.length != 0)).1
         intents (populateIntentRecord packed
           (resolveIntentSchema cs cv cat ts tv (intents.length != 0)).1
           txnId tableName opId intents))) := by
  simp only [processIntents] at hok
  split at hok
  · exact Except.noConfusion hok
  · have hbegin : ∀ rs : List CDCRecord,
        ((∃ r ∈ (if inState.key == "" && inState.writeId == 0 then
            [beginRecord txnId tableName] else []) ++ rs, r.rowMsg.op = RowOp.BEGIN) ↔
          ((inState.key = "" ∧ inState.writeId = 0) ∨
            ∃ r ∈ rs, r.rowMsg.op = RowOp.BEGIN)) := by
      intro rs
      split
      · rename_i hfr
        simp only [Bool.and_eq_true, beq_iff_eq] at hfr
        constructor
        · intro _
          exact Or.inl hfr
        · intro _
          exact ⟨beginRecord txnId tableName, by simp, rfl⟩
      · rename_i hfr
        simp only [Bool.and_eq_true, beq_iff_eq] at hfr
        constructor
        · intro h
          simp only [List.nil_append] at h
          exact Or.inr h
        · intro h
          rcases h with h | h
          · exact absurd h hfr
          · simpa using h
    split at hok
    · -- transaction fully consumed: COMMIT appended
      rename_i hfresh
      simp only [Bool.and_eq_true, beq_iff_eq] at hfresh
      simp only [Except.ok.injEq] at hok
      subst hok
      refine ⟨?_, ?_, ?_⟩
      · rw [show ((if inState.key == "" && inState.writeId == 0 then
            [beginRecord txnId tableName] else []) ++
            (populateIntentRecord packed
              (resolveIntentSchema cs cv cat ts tv (intents.length != 0)).1
              txnId tableName opId intents).records ++
            [commitRecord opId txnId tableName]) =
            ((if inState.key == "" && inState.writeId == 0 then
            [beginRecord txnId tableName] else []) ++
            ((populateIntentRecord packed
              (resolveIntentSchema cs cv cat ts tv (intents.length != 0)).1
              txnId tableName opId intents).records ++
            [commitRecord opId txnId tableName])) from by simp]
        rw [hbegin]
        constructor
        · intro h
          rcases h with h | h
          · exact h
          · exfalso
            obtain ⟨r, hr, hop⟩ := h
            rcases List.mem_append.mp hr with hr | hr
            · exact absurd hop (markers_populate packed _ txnId tableName opId intents r hr).1
            · simp only [List.mem_singleton] at hr
              subst hr
              simp [commitRecord] at hop
        · exact Or.inl
      · intro _
        refine ⟨?_, rfl, rfl, rfl, rfl⟩
        rw [show ((if inState.key == "" && inState.writeId == 0 then
            [beginRecord txnId tableName] else []) ++
            (populateIntentRecord packed
              (resolveIntentSchema cs cv cat ts tv (intents.length != 0)).1
              txnId tableName opId intents).records ++
            [commitRecord opId txnId tableName]) =
            (((if inState.key == "" && inState.writeId == 0 then
            [beginRecord txnId tableName] else []) ++
            (populateIntentRecord packed
              (resolveIntentSchema cs cv cat ts tv (intents.length != 0)).1
              txnId tableName opId intents).records) ++
            [commitRecord opId txnId tableName]) from by simp]
        exact List.getLast?_concat _
      · intro hne
        exact absurd hfresh hne
    · -- intents remain: no COMMIT, resume locator in the checkpoint
      rename_i hpend
      simp only [Bool.and_eq_true, beq_iff_eq, not_and] at hpend
      simp only [Except.ok.injEq] at hok
      subst hok
      refine ⟨?_, ?_, ?_⟩
      · rw [hbegin]
        constructor
        · intro h
          rcases h with h | h
          · exact h
          · exfalso
            obtain ⟨r, hr, hop⟩ := h
            exact absurd hop (markers_populate packed _ txnId tableName opId intents r hr).1
        · exact Or.inl
      · intro hfr
        exact absurd hfr (by intro hx; exact hpend hx.1 hx.2)
      · intro _
        refine ⟨?_, rfl, rfl, rfl, rfl, ?_⟩
        · intro r hr
          rcases List.mem_append.mp hr with hr | hr
          · split at hr
            · simp only [List.mem_singleton] at hr
              subst hr
              intro hx
              simp [beginRecord] at hx
            · simp at hr
          · exact (markers_populate packed _ txnId tableName opId intents r hr).2
        · exact loc_populate packed _ txnId tableName opId intents

/-- C2, counterexample. The claim says that when intents remain the
checkpoint's key and write id are those of the last intent folded into an
emitted record; but a trailing skipped primary-key-column intent also
advances the resume locator: after a root-tombstone intent (emitted DELETE
with locator `("r1", 1)`) followed by a key-column intent with locator
`("r2", 2)`, the returned checkpoint carries `("r2", 2)`, not the emitted
record's `("r1", 1)`. -/
theorem transactionBracketing_counterexample :
    processIntents true ⟨2, 9⟩ "tx" "t" ⟨0, 0⟩
        { numColumns := 2, numKeyColumns := 1, keyColumnIds := [0] } 0 none {}
        [⟨"A", none, ValueEntryType.kTombstone, 0, 1, 100, 1, "r1"⟩,
         ⟨"B", some (KeyEntryType.kColumnId, 0), ValueEntryType.kOtherValue, 1, 1, 100, 2, "r2"⟩]
        { key := "r2", writeId := 2 } (some { numColumns := 2, numKeyColumns := 1, keyColumnIds := [0] }) 0 {} =
      Except.ok ([beginRecord "tx" "t",
        { rowMsg := { op := RowOp.DELETE, transactionId := "tx", tableName := "t",
                      newTuple := [none], oldTuple := [some 0] },
          locTerm := 2, locIndex := 9, locWriteId := 1, locKey := "r1" }],
        { term := 2, index := 9, writeId := 2, key := "r2", snapshotTime := 0 },
        some { numColumns := 2, numKeyColumns := 1, keyColumnIds := [0] }, 0) ∧
    ("r2" : String) ≠ "r1" := by
  exact ⟨rfl, by decide⟩

/-- Witness for `transactionBracketing_amended`. -/
theorem transactionBracketing_amended_witness :
    (processIntents true ⟨2, 9⟩ "tx" "t" ⟨0, 0⟩
        { numColumns := 2, numKeyColumns := 1, keyColumnIds := [0] } 0 none {}
        [⟨"P", some (KeyEntryType.kColumnId, 1), ValueEntryType.kOtherValue, 1, 1, 50, 3, "ra"⟩]
        { key := "ra", writeId := 3 }
        (some { numColumns := 2, numKeyColumns := 1, keyColumnIds := [0] }) 0 {} =
      Except.ok ([beginRecord "tx" "t",
        { rowMsg := { op := RowOp.UPDATE, transactionId := "tx", tableName := "t",
                      newTuple := [some 0, some 1], oldTuple := [none, none] },
          locTerm := 2, locIndex := 9, locWriteId := 3, locKey := "ra" }],
        { term := 2, index := 9, writeId := 3, key := "ra", snapshotTime := 0 },
        some { numColumns := 2, numKeyColumns := 1, keyColumnIds := [0] }, 0)) ∧
    ((∃ r ∈ ([beginRecord "tx" "t",
        { rowMsg := { op := RowOp.UPDATE, transactionId := "tx", tableName := "t",
                      newTuple := [some 0, some 1], oldTuple := [none, none] },
          locTerm := 2, locIndex := 9, locWriteId := 3, locKey := "ra" }] : List CDCRecord),
        r.rowMsg.op = RowOp.BEGIN) ↔ ((("" : String) = "") ∧ ((0 : Int) = 0))) := by
  refine ⟨rfl, ?_⟩
  have h := transactionBracketing_amended true ⟨2, 9⟩ "tx" "t" ⟨0, 0⟩
    { numColumns := 2, numKeyColumns := 1, keyColumnIds := [0] } 0 none {}
    [⟨"P", some (KeyEntryType.kColumnId, 1), ValueEntryType.kOtherValue, 1, 1, 50, 3, "ra"⟩]
    { key := "ra", writeId := 3 }
    (some { numColumns := 2, numKeyColumns := 1, keyColumnIds := [0] }) 0 {}
    ([beginRecord "tx" "t",
      { rowMsg := { op := RowOp.UPDATE, transactionId := "tx", tableName := "t",
                    newTuple := [some 0, some 1], oldTuple := [none, none] },
        locTerm := 2, locIndex := 9, locWriteId := 3, locKey := "ra" }],
      { term := 2, index := 9, writeId := 3, key := "ra", snapshotTime := 0 },
      some { numColumns := 2, numKeyColumns := 1, keyColumnIds := [0] }, 0)
    rfl
  exact h.1

/-! ## Shared WAL-loop lemmas -/

/-- When the schema cache is already installed, the head-of-loop schema
resolution is the identity on the state and returns the cached schema. -/
theorem headSchemaResolve_cached (env : TabletEnv) (m : Msg) (st : WalState)
    (cs : Schema) (hcs : st.cachedSchema = some cs) :
    headSchemaResolve env m st = (st, cs) := by
  simp only [headSchemaResolve, hcs]
  simp

theorem compare_int_self (a : Int) : compare a a = Ordering.eq := by
  simp [compare, compareOfLessAndEq]

theorem opIdLeB_refl (a : OpId) : opIdLeB a a = true := by
  simp only [opIdLeB, compare_int_self, Ordering.then]
  decide

/-- `ProcessIntents` always stamps the checkpoint it returns with the
apply record's (term, index) (`SetTermIndex`, line 611). -/
theorem processIntents_ckpt_id (packed : Bool) (opId : OpId) (txnId : String)
    (tableName : String) (latestCheckpointOp : OpId) (tabletSchema : Schema)
    (tabletVersion : Nat) (catalog : Option (Schema × Nat))
    (inState : StreamState) (intents : List Intent) (outState : StreamState)
    (cachedSchema : Option Schema) (cachedVersion : Nat)
    (checkpoint : CheckpointPB) (recs : List CDCRecord) (ckpt : CheckpointPB)
    (nc : Option Schema) (nv : Nat)
    (h : processIntents packed opId txnId tableName latestCheckpointOp
        tabletSchema tabletVersion catalog inState intents outState
        cachedSchema cachedVersion checkpoint = Except.ok (recs, ckpt, nc, nv)) :
    ckpt.term = opId.term ∧ ckpt.index = opId.index := by
  simp only [processIntents] at h
  split at h
  · exact absurd h (by simp)
  · split at h
    · injection h with h2
      injection h2 with _ h3
      injection h3 with h4
      subst h4
      exact ⟨rfl, rfl⟩
    · injection h with h2
      injection h2 with _ h3
      injection h3 with h4
      subst h4
      exact ⟨rfl, rfl⟩

/-- The head-of-loop schema resolution never touches the checkpoint, its
updated flag, or the last non-actionable OpId. -/
theorem headSchemaResolve_frame (env : TabletEnv) (m : Msg) (st : WalState) :
    (headSchemaResolve env m st).1.checkpoint = st.checkpoint ∧
    (headSchemaResolve env m st).1.checkpointUpdated = st.checkpointUpdated ∧
    (headSchemaResolve env m st).1.lastSeenDefault = st.lastSeenDefault := by
  simp only [headSchemaResolve]
  repeat' split
  all_goals simp

/-- Closed form of `processMsg` on an APPLYING transaction entry when the
schema cache is installed. -/
theorem processMsg_updateTxn (cfg : Config) (env : TabletEnv) (st : WalState)
    (t idx : Int) (ht : Nat) (hcat : Option (Schema × Nat)) (txnId : String)
    (intents : List Intent) (outState : StreamState)
    (catalog : Option (Schema × Nat)) (commitHt : Nat) (cs : Schema)
    (hcs : st.cachedSchema = some cs) :
    processMsg cfg env st
      ⟨t, idx, ht, hcat, MsgKind.updateTxn true txnId intents outState catalog commitHt⟩ =
    (match processIntents cfg.packed ⟨t, idx⟩ txnId env.tableName
        env.latestCheckpointOp env.tabletSchema env.tabletVersion catalog {}
        intents outState st.cachedSchema st.cachedVersion st.checkpoint with
     | Except.error e => Except.error e
     | Except.ok (recs, ckpt, nc, nv) =>
        Except.ok
          { st with
            lastSeen := ⟨t, idx⟩,
            commitTimestamp := commitHt,
            resp := st.resp ++ recs,
            checkpoint := ckpt,
            cachedSchema := nc,
            cachedVersion := nv,
            pendingIntents :=
              if outState.writeId != 0 && outState.key != "" then true
              else st.pendingIntents,
            lastStreamed :=
              if outState.writeId != 0 && outState.key != "" then st.lastStreamed
              else ⟨t, idx⟩,
            checkpointUpdated := true }) := by
  have hres := headSchemaResolve_cached env
    ⟨t, idx, ht, hcat, MsgKind.updateTxn true txnId intents outState catalog commitHt⟩
    { st with lastSeen := ⟨t, idx⟩ } cs hcs
  simp only [processMsg, hres]
  simp only [if_true]
  split
  · rename_i e heq
    try rw [heq]
    try rfl
  · rename_i recs ckpt nc nv heq
    try rw [heq]
    split
    · rename_i hpend
      simp only [hpend, if_true]
    · rename_i hpend
      simp only [Bool.not_eq_true] at hpend
      simp only [hpend, Bool.false_eq_true, if_false]

/-- Closed form of `processMsg` on a CHANGE_METADATA entry when the schema
cache is installed: the cache takes the resolved version, the checkpoint
moves to the entry, and a DDL record (carrying the raw version) is
appended unless the dedup test fires against the resolved version. -/
theorem processMsg_changeMeta (cfg : Config) (env : TabletEnv) (st : WalState)
    (t idx : Int) (ht : Nat) (hcat : Option (Schema × Nat)) (ns : Schema)
    (raw : Nat) (cat : Option (Schema × Nat)) (cs : Schema)
    (hcs : st.cachedSchema = some cs) :
    ∃ cs2, processMsg cfg env st
      ⟨t, idx, ht, hcat, MsgKind.changeMeta ns raw cat⟩ = Except.ok
      { st with
        lastSeen := ⟨t, idx⟩,
        cachedSchema := some cs2,
        cachedVersion := resolvedMetaVersion raw cat,
        resp :=
          if ddlDedupSkip st.resp (resolvedMetaVersion raw cat) then st.resp
          else st.resp ++ [ddlRecord t idx raw env.tableName],
        checkpoint := ⟨t, idx, 0, "", 0⟩,
        lastStreamed := ⟨t, idx⟩,
        checkpointUpdated := true } := by
  have hres := headSchemaResolve_cached env
    ⟨t, idx, ht, hcat, MsgKind.changeMeta ns raw cat⟩
    { st with lastSeen := ⟨t, idx⟩ } cs hcs
  simp only [processMsg, hres]
  rcases cat with _ | ⟨cs2, v⟩
  · refine ⟨ns, ?_⟩
    simp only [resolvedMetaVersion, setCheckpoint]
    split
    · rfl
    · rfl
  · simp only [resolvedMetaVersion, setCheckpoint]
    by_cases hv : (raw != v) = true
    · refine ⟨cs2, ?_⟩
      simp only [hv, if_true]
      have hrv : raw ≠ v := by simpa [bne] using hv
      split
      · rfl
      · rfl
    · refine ⟨ns, ?_⟩
      simp only [Bool.not_eq_true] at hv
      simp only [hv, Bool.false_eq_true, if_false]
      have hrv : raw = v := by simpa [bne] using hv
      subst hrv
      split
      · rfl
      · rfl

/-- A response ending in a DDL record of version `v` makes the dedup test
fire for `v`. -/
theorem ddlDedupSkip_append (xs : List CDCRecord) (t i : Int) (v : Nat)
    (tn : String) :
    ddlDedupSkip (xs ++ [ddlRecord t i v tn]) v = true := by
  simp [ddlDedupSkip, ddlRecord]

/-- One message preserves the checkpoint-monotonicity invariant when its
OpId is at or after the request cursor and transaction entries are
APPLYING. -/
theorem processMsg_mono (cfg : Config) (env : TabletEnv) (st : WalState)
    (m : Msg) (fromOp : CheckpointPB) (st2 : WalState)
    (hg : goodMsg fromOp m)
    (hinv : ckptMono ⟨fromOp.term, fromOp.index⟩ st)
    (h : processMsg cfg env st m = Except.ok st2) :
    ckptMono ⟨fromOp.term, fromOp.index⟩ st2 := by
  rcases m with ⟨t, idx, ht, hcat, kind⟩
  simp only [goodMsg] at hg
  try dsimp only at hg
  rcases hrs : headSchemaResolve env ⟨t, idx, ht, hcat, kind⟩
    { st with lastSeen := ⟨t, idx⟩ } with ⟨stR, cur⟩
  have hfr := headSchemaResolve_frame env
    ⟨t, idx, ht, hcat, kind⟩ { st with lastSeen := ⟨t, idx⟩ }
  rw [hrs] at hfr
  try dsimp only at hfr
  simp only [processMsg] at h
  rw [hrs] at h
  try dsimp only at h
  cases kind with
  | updateTxn applying txnId intents outState catalog commitHt =>
      dsimp only at h hg
      have happ : applying = true := hg.2
      subst happ
      rw [if_pos rfl] at h
      split at h
      · exact absurd h (by simp)
      · rename_i recs ckpt nc nv heq
        obtain ⟨hct, hci⟩ := processIntents_ckpt_id _ _ _ _ _ _ _ _ _ _ _ _ _ _
          _ _ _ _ heq
        rcases hb : (outState.writeId != 0 && outState.key != "") with _ | _
        all_goals rw [hb] at h
        all_goals simp only [Bool.false_eq_true, if_false, eq_self_iff_true,
          if_true] at h
        all_goals injection h with h2
        all_goals subst h2
        all_goals constructor
        · intro _
          dsimp only
          rw [hct, hci]
          exact hg.1
        · intro hcond
          dsimp only at hcond ⊢
          rw [hfr.2.2] at hcond ⊢
          exact hinv.2 hcond
        · intro _
          dsimp only
          rw [hct, hci]
          exact hg.1
        · intro hcond
          dsimp only at hcond ⊢
          rw [hfr.2.2] at hcond ⊢
          exact hinv.2 hcond
  | writeOp hasTxn pairs =>
      dsimp only at h
      split at h
      · split at h
        · exact absurd h (by simp)
        · injection h with h2
          subst h2
          constructor
          · intro _
            dsimp only [setCheckpoint]
            exact hg.1
          · intro hcond
            dsimp only [setCheckpoint] at hcond ⊢
            rw [hfr.2.2] at hcond ⊢
            exact hinv.2 hcond
      · injection h with h2
        subst h2
        constructor
        · intro hcond
          rw [hfr.2.1] at hcond
          rw [hfr.1]
          exact hinv.1 hcond
        · intro hcond
          rw [hfr.2.2] at hcond ⊢
          exact hinv.2 hcond
  | changeMeta newSchema rawVersion catalog =>
      dsimp only at h
      repeat' split at h
      all_goals injection h with h2
      all_goals subst h2
      all_goals constructor
      all_goals intro hcond
      all_goals dsimp only [setCheckpoint] at hcond ⊢
      all_goals try rw [hfr.2.2] at hcond ⊢
      all_goals first
        | exact hg.1
        | exact hinv.2 hcond
  | truncateOp =>
      dsimp only at h
      split at h
      · injection h with h2
        subst h2
        constructor
        · intro _
          dsimp only [setCheckpoint]
          exact hg.1
        · intro hcond
          dsimp only [setCheckpoint] at hcond ⊢
          rw [hfr.2.2] at hcond ⊢
          exact hinv.2 hcond
      · injection h with h2
        subst h2
        constructor
        · intro hcond
          rw [hfr.2.1] at hcond
          rw [hfr.1]
          exact hinv.1 hcond
        · intro hcond
          rw [hfr.2.2] at hcond ⊢
          exact hinv.2 hcond
  | splitOp verified =>
      dsimp only at h
      split at h
      · split at h
        · injection h with h2
          subst h2
          constructor
          · intro hcond
            rw [hfr.2.1] at hcond
            rw [hfr.1]
            exact hinv.1 hcond
          · intro hcond
            rw [hfr.2.2] at hcond ⊢
            exact hinv.2 hcond
        · injection h with h2
          subst h2
          constructor
          · intro _
            dsimp only [setCheckpoint]
            exact hg.1
          · intro hcond
            dsimp only [setCheckpoint] at hcond ⊢
            rw [hfr.2.2] at hcond ⊢
            exact hinv.2 hcond
      · injection h with h2
        subst h2
        constructor
        · intro hcond
          rw [hfr.2.1] at hcond
          rw [hfr.1]
          exact hinv.1 hcond
        · intro hcond
          rw [hfr.2.2] at hcond ⊢
          exact hinv.2 hcond
  | otherOp =>
      dsimp only at h
      injection h with h2
      subst h2
      constructor
      · intro hcond
        dsimp only at hcond ⊢
        rw [hfr.2.1] at hcond
        rw [hfr.1]
        exact hinv.1 hcond
      · intro _
        dsimp only
        exact hg.1

theorem processMsgs_mono (cfg : Config) (env : TabletEnv)
    (fromOp : CheckpointPB) (msgs : List Msg) :
    ∀ (st st2 : WalState), (∀ m ∈ msgs, goodMsg fromOp m) →
    ckptMono ⟨fromOp.term, fromOp.index⟩ st →
    processMsgs cfg env st msgs = Except.ok st2 →
    ckptMono ⟨fromOp.term, fromOp.index⟩ st2 := by
  induction msgs with
  | nil =>
      intro st st2 _ hinv h
      injection h with h2
      subst h2
      exact hinv
  | cons m rest ih =>
      intro st st2 hg hinv h
      simp only [processMsgs] at h
      split at h
      · exact absurd h (by simp)
      · rename_i st1 heq
        have hinv1 := processMsg_mono cfg env st m fromOp st1
          (hg m (by simp)) hinv heq
        split at h
        · injection h with h2
          subst h2
          exact hinv1
        · exact ih st1 st2 (fun x hx => hg x (by simp [hx])) hinv1 h

theorem walLoop_mono (cfg : Config) (env : TabletEnv)
    (fromOp : CheckpointPB) (bs : List (List Msg)) :
    ∀ (st st2 : WalState), (∀ b ∈ bs, ∀ m ∈ b, goodMsg fromOp m) →
    ckptMono ⟨fromOp.term, fromOp.index⟩ st →
    walLoop cfg env st bs = Except.ok st2 →
    ckptMono ⟨fromOp.term, fromOp.index⟩ st2 := by
  induction bs with
  | nil =>
      intro st st2 _ hinv h
      injection h with h2
      subst h2
      exact hinv
  | cons b rest ih =>
      intro st st2 hgb hinv h
      simp only [walLoop] at h
      split at h
      · injection h with h2
        subst h2
        exact hinv
      · split at h
        · exact absurd h (by simp)
        · rename_i st1 heq
          have hinv1 := processMsgs_mono cfg env fromOp b
            { st with pendingIntents := false, schemaStreamed := false } st1
            (hgb b (by simp)) ⟨hinv.1, hinv.2⟩ heq
          split at h
          · exact ih st1 st2 (fun x hx mm hmm => hgb x (by simp [hx]) mm hmm)
              hinv1 h
          · injection h with h2
            subst h2
            exact hinv1

/-! ## C6: mid-transaction suspension -/

/-- C6. While handling an APPLYING transaction entry in the WAL loop, if
`ProcessIntents` leaves a stream state with a nonzero write id and a
non-empty key, the message loop stops at this entry (no later message is
dispatched in this response) and `last_streamed_op_id` is not advanced;
otherwise `last_streamed_op_id` advances to this entry's OpId and the loop
continues with the remaining messages. -/
theorem midTxnSuspension (cfg : Config) (env : TabletEnv) (st : WalState)
    (t idx : Int) (ht : Nat) (hcat : Option (Schema × Nat)) (txnId : String)
    (intents : List Intent) (outState : StreamState)
    (catalog : Option (Schema × Nat)) (commitHt : Nat) (cs : Schema)
    (rest : List Msg) (recs : List CDCRecord) (ckpt : CheckpointPB)
    (nc : Option Schema) (nv : Nat)
    (hcs : st.cachedSchema = some cs)
    (hpend : st.pendingIntents = false)
    (hpi : processIntents cfg.packed ⟨t, idx⟩ txnId env.tableName
        env.latestCheckpointOp env.tabletSchema env.tabletVersion catalog {}
        intents outState st.cachedSchema st.cachedVersion st.checkpoint =
      Except.ok (recs, ckpt, nc, nv)) :
    (outState.writeId ≠ 0 ∧ outState.key ≠ "" →
      ∃ st2, processMsgs cfg env st
          (⟨t, idx, ht, hcat, MsgKind.updateTxn true txnId intents outState
            catalog commitHt⟩ :: rest) = Except.ok st2 ∧
        st2.pendingIntents = true ∧ st2.lastStreamed = st.lastStreamed) ∧
    (outState.writeId = 0 ∨ outState.key = "" →
      ∃ st2, processMsg cfg env st
          ⟨t, idx, ht, hcat, MsgKind.updateTxn true txnId intents outState
            catalog commitHt⟩ = Except.ok st2 ∧
        st2.lastStreamed = ⟨t, idx⟩ ∧ st2.pendingIntents = false ∧
        processMsgs cfg env st
          (⟨t, idx, ht, hcat, MsgKind.updateTxn true txnId intents outState
            catalog commitHt⟩ :: rest) = processMsgs cfg env st2 rest) := by
  have hm := processMsg_updateTxn cfg env st t idx ht hcat txnId intents
    outState catalog commitHt cs hcs
  rw [hpi] at hm
  dsimp only at hm
  constructor
  · intro hrem
    have hb : (outState.writeId != 0 && outState.key != "") = true := by
      simp [bne, hrem.1, hrem.2]
    rw [hb] at hm
    simp only [if_true] at hm
    refine ⟨{ st with
              resp := st.resp ++ recs, checkpoint := ckpt,
              checkpointUpdated := true, pendingIntents := true,
              lastSeen := ⟨t, idx⟩, cachedSchema := nc, cachedVersion := nv,
              commitTimestamp := commitHt }, ?_, rfl, rfl⟩
    simp only [processMsgs, hm, if_true]
  · intro hdone
    have hb : (outState.writeId != 0 && outState.key != "") = false := by
      rcases hdone with h | h <;> simp [bne, h]
    rw [hb] at hm
    simp only [Bool.false_eq_true, if_false] at hm
    refine ⟨_, hm, rfl, hpend, ?_⟩
    simp only [processMsgs, hm, hpend]
    simp

/-- C6, witness: a pending resume state on a concrete APPLYING entry. -/
theorem midTxnSuspension_witness :
    ((⟨"k", 5⟩ : StreamState).writeId ≠ 0 ∧ (⟨"k", 5⟩ : StreamState).key ≠ "" →
      ∃ st2, processMsgs {} {} { cachedSchema := some {} }
          (⟨1, 2, 0, none, MsgKind.updateTxn true "tx" [] ⟨"k", 5⟩ none 0⟩ :: []) =
            Except.ok st2 ∧
        st2.pendingIntents = true ∧
        st2.lastStreamed = ({ cachedSchema := some {} } : WalState).lastStreamed) ∧
    ((⟨"k", 5⟩ : StreamState).writeId = 0 ∨ (⟨"k", 5⟩ : StreamState).key = "" →
      ∃ st2, processMsg {} {} { cachedSchema := some {} }
          ⟨1, 2, 0, none, MsgKind.updateTxn true "tx" [] ⟨"k", 5⟩ none 0⟩ =
            Except.ok st2 ∧
        st2.lastStreamed = ⟨1, 2⟩ ∧ st2.pendingIntents = false ∧
        processMsgs {} {} { cachedSchema := some {} }
          (⟨1, 2, 0, none, MsgKind.updateTxn true "tx" [] ⟨"k", 5⟩ none 0⟩ :: []) =
          processMsgs {} {} st2 []) :=
  midTxnSuspension {} {} { cachedSchema := some {} } 1 2 0 none "tx" [] ⟨"k", 5⟩
    none 0 {} []
    [{ rowMsg := { op := RowOp.BEGIN, transactionId := "tx", tableName := "",
                   commitTime := 0, schemaVersion := 0, newTuple := [],
                   oldTuple := [] },
       locTerm := 0, locIndex := 0, locWriteId := 0, locKey := "" }]
    ⟨1, 2, 0, "", 0⟩ (some {}) 0 rfl rfl rfl

/-! ## C8: snapshot handshake -/

/-- C8, counterexample. The handshake pins intent retention at the FIRST
`GetLastReplicatedData` read but the second read (line 789) overwrites
`data` before `SetCheckpoint` (lines 794-795), so when replication
advances between the two reads the returned checkpoint's (term, index)
differs from the pinned OpId — the claim's "with intent retention pinned
at that OpId" fails. -/
theorem snapshotHandshake_counterexample :
    ∃ out, getChangesForCDCSDK {}
      { lastReplicated1 := (⟨3, 9⟩, 0), lastReplicated2 := (⟨4, 11⟩, 77) }
      { writeId := -1 } none 0 ⟨2, 5⟩ = Except.ok out ∧
    out.retentionPin = some ⟨3, 9⟩ ∧
    out.cdcSdkCheckpoint = ⟨4, 11, -1, "", 77⟩ ∧
    (⟨out.cdcSdkCheckpoint.term, out.cdcSdkCheckpoint.index⟩ : OpId) ≠ ⟨3, 9⟩ := by
  refine ⟨_, rfl, rfl, rfl, ?_⟩
  decide

/-- C8, amended. A cursor with `write_id = -1`, an empty key and zero
snapshot time yields a response with no records and a checkpoint whose
term, index and snapshot time come from the SECOND `GetLastReplicatedData`
read (the one made just before `SetCheckpoint`), with `write_id = -1` and
an empty key; intent retention is pinned beforehand at the FIRST read's
OpId, which can lag the checkpoint's OpId when replication advances
between the two reads. -/
theorem snapshotHandshake_amended (cfg : Config) (env : TabletEnv)
    (fromOp : CheckpointPB)
    (ics : Option Schema) (icv : Nat) (ils : OpId)
    (h1 : fromOp.writeId = -1) (h2 : fromOp.key = "") (h3 : fromOp.snapshotTime = 0) :
    getChangesForCDCSDK cfg env fromOp ics icv ils = Except.ok
      { records := [],
        cdcSdkCheckpoint :=
          { term := env.lastReplicated2.1.term,
            index := env.lastReplicated2.1.index,
            writeId := -1,
            key := "",
            snapshotTime := env.lastReplicated2.2 },
        respCheckpointOp := if 0 < ils.index then some ils else none,
        lastStreamed := ils,
        retentionPin := some env.lastReplicated1.1,
        tabletSplit := false } := by
  simp [getChangesForCDCSDK, h1, h2, h3, finishTail]

/-- C8, witness at concrete inputs with the two reads differing. -/
theorem snapshotHandshake_amended_witness :
    getChangesForCDCSDK {}
      { lastReplicated1 := (⟨3, 9⟩, 0), lastReplicated2 := (⟨4, 11⟩, 77) }
      { writeId := -1 } none 0 ⟨2, 5⟩ = Except.ok
      { records := [],
        cdcSdkCheckpoint :=
          { term := 4, index := 11, writeId := -1, key := "", snapshotTime := 77 },
        respCheckpointOp := if 0 < (5 : Int) then some ⟨2, 5⟩ else none,
        lastStreamed := ⟨2, 5⟩,
        retentionPin := some ⟨3, 9⟩,
        tabletSplit := false } :=
  snapshotHandshake_amended {}
    { lastReplicated1 := (⟨3, 9⟩, 0), lastReplicated2 := (⟨4, 11⟩, 77) }
    { writeId := -1 } none 0 ⟨2, 5⟩ rfl rfl rfl

/-! ## C9: DDL deduplication -/

/-- C9, counterexample. Two successive CHANGE_METADATA entries that both
resolve to schema version 7 still produce two DDL records: the first entry
(raw version 5, catalog answer 7) appends a DDL record carrying the raw
version 5, so the second entry's dedup test compares 7 against 5 and
fails to fire. -/
theorem ddlDedup_counterexample :
    resolvedMetaVersion 5 (some ({}, 7)) = resolvedMetaVersion 7 (some ({}, 7)) ∧
    (processMsgs {} {} { cachedSchema := some {} }
        [⟨1, 1, 0, none, MsgKind.changeMeta {} 5 (some ({}, 7))⟩,
         ⟨1, 2, 0, none, MsgKind.changeMeta {} 7 (some ({}, 7))⟩]).map
      (fun st => (st.resp.filter (fun r => r.rowMsg.op == RowOp.DDL)).length) =
      Except.ok 2 := by
  constructor
  · rfl
  · rfl

/-- C9, amended. A CHANGE_METADATA entry appends a DDL record carrying the
entry's raw schema version unless the last response record is a DDL whose
version equals this entry's resolved version; hence two successive entries
produce exactly one DDL record when the first entry's raw version equals
the second's resolved version (not when their resolved versions merely
agree). -/
theorem ddlDedup_amended (cfg : Config) (env : TabletEnv) (st : WalState)
    (t1 i1 t2 i2 : Int) (ht1 ht2 : Nat) (hc1 hc2 : Option (Schema × Nat))
    (ns1 ns2 : Schema) (raw1 raw2 : Nat) (cat1 cat2 : Option (Schema × Nat))
    (cs : Schema)
    (hcs : st.cachedSchema = some cs)
    (hpend : st.pendingIntents = false) :
    (∃ cs2, processMsg cfg env st
      ⟨t1, i1, ht1, hc1, MsgKind.changeMeta ns1 raw1 cat1⟩ = Except.ok
      { st with
        lastSeen := ⟨t1, i1⟩,
        cachedSchema := some cs2,
        cachedVersion := resolvedMetaVersion raw1 cat1,
        resp :=
          if ddlDedupSkip st.resp (resolvedMetaVersion raw1 cat1) then st.resp
          else st.resp ++ [ddlRecord t1 i1 raw1 env.tableName],
        checkpoint := ⟨t1, i1, 0, "", 0⟩,
        lastStreamed := ⟨t1, i1⟩,
        checkpointUpdated := true }) ∧
    (raw1 = resolvedMetaVersion raw2 cat2 →
     ddlDedupSkip st.resp (resolvedMetaVersion raw1 cat1) = false →
     ∃ out, processMsgs cfg env st
        [⟨t1, i1, ht1, hc1, MsgKind.changeMeta ns1 raw1 cat1⟩,
         ⟨t2, i2, ht2, hc2, MsgKind.changeMeta ns2 raw2 cat2⟩] = Except.ok out ∧
       out.resp = st.resp ++ [ddlRecord t1 i1 raw1 env.tableName]) := by
  obtain ⟨cs2, hm1⟩ := processMsg_changeMeta cfg env st t1 i1 ht1 hc1 ns1 raw1
    cat1 cs hcs
  refine ⟨⟨cs2, hm1⟩, ?_⟩
  intro hv hskip
  rw [hskip] at hm1
  simp only [Bool.false_eq_true, if_false] at hm1
  obtain ⟨cs3, hm2⟩ := processMsg_changeMeta cfg env
    { st with
      lastSeen := ⟨t1, i1⟩,
      cachedSchema := some cs2,
      cachedVersion := resolvedMetaVersion raw1 cat1,
      resp := st.resp ++ [ddlRecord t1 i1 raw1 env.tableName],
      checkpoint := ⟨t1, i1, 0, "", 0⟩,
      lastStreamed := ⟨t1, i1⟩,
      checkpointUpdated := true }
    t2 i2 ht2 hc2 ns2 raw2 cat2 cs2 rfl
  have hskip2 : ddlDedupSkip (st.resp ++ [ddlRecord t1 i1 raw1 env.tableName])
      (resolvedMetaVersion raw2 cat2) = true := by
    rw [← hv]
    exact ddlDedupSkip_append st.resp t1 i1 raw1 env.tableName
  dsimp only at hm2
  rw [hskip2] at hm2
  simp only [if_true] at hm2
  refine ⟨{ st with
            resp := st.resp ++ [ddlRecord t1 i1 raw1 env.tableName],
            checkpoint := ⟨t2, i2, 0, "", 0⟩,
            checkpointUpdated := true,
            lastStreamed := ⟨t2, i2⟩,
            lastSeen := ⟨t2, i2⟩,
            cachedSchema := some cs3,
            cachedVersion := resolvedMetaVersion raw2 cat2 }, ?_, rfl⟩
  rw [hpend] at hm1 hm2
  simp only [processMsgs, hm1]
  try dsimp only
  try simp only [Bool.false_eq_true, if_false]
  simp only [processMsgs, hm2]
  try dsimp only
  try simp only [Bool.false_eq_true, if_false, ite_self]
  rw [hpend]

/-- C9, witness: first entry raw 7 uncatalogued, second raw 5 resolved
to 7 by the catalog; one DDL record results. -/
theorem ddlDedup_amended_witness :
    (∃ cs2, processMsg {} {} { cachedSchema := some {} }
      ⟨1, 1, 0, none, MsgKind.changeMeta {} 7 none⟩ = Except.ok
      { lastSeen := ⟨1, 1⟩,
        cachedSchema := some cs2,
        cachedVersion := 7,
        resp := [ddlRecord 1 1 7 ""],
        checkpoint := ⟨1, 1, 0, "", 0⟩,
        lastStreamed := ⟨1, 1⟩,
        checkpointUpdated := true }) ∧
    ((7 : Nat) = resolvedMetaVersion 5 (some ({}, 7)) →
     ddlDedupSkip [] 7 = false →
     ∃ out, processMsgs {} {} { cachedSchema := some {} }
        [⟨1, 1, 0, none, MsgKind.changeMeta {} 7 none⟩,
         ⟨1, 2, 0, none, MsgKind.changeMeta {} 5 (some ({}, 7))⟩] = Except.ok out ∧
       out.resp = [ddlRecord 1 1 7 ""]) :=
  ddlDedup_amended {} {} { cachedSchema := some {} } 1 1 1 2 0 0 none none
    {} {} 7 5 none (some ({}, 7)) {} rfl rfl

/-! ## C7: tablet-split handling -/

/-- C7, counterexample. A verified SPLIT_OP with no earlier checkpoint
update reports `TabletSplit` and moves the checkpoint to the split entry
even though records are already buffered: the colocated-table DDL records
emitted by the schema resolution at the head of the loop do not count as a
checkpoint update, so "events already buffered" does not imply the success
path the claim describes. -/
theorem tabletSplitHandling_counterexample :
    ∃ out, getChangesForCDCSDK {}
      { colocatedTables := 1,
        batches := [[⟨4, 6, 0, some ({}, 3), MsgKind.splitOp true⟩]] }
      {} none 0 ⟨0, 0⟩ = Except.ok out ∧
    out.records ≠ [] ∧ out.tabletSplit = true ∧
    out.cdcSdkCheckpoint.term = 4 ∧ out.cdcSdkCheckpoint.index = 6 := by
  refine ⟨_, rfl, ?_, rfl, rfl, rfl⟩
  decide

/-- C7, amended. On a verified SPLIT_OP: if no checkpoint update happened
earlier in this response the checkpoint and split OpId move to the entry
(and the response then reports `TabletSplit` exactly when the final
checkpoint still equals the split OpId); if a checkpoint update already
happened the entry is a no-op; an unverified split is a no-op. The gate is
the checkpoint-updated flag, not whether records are buffered. -/
theorem tabletSplitHandling_amended (cfg : Config) (env : TabletEnv) (st : WalState)
    (t idx : Int) (ht : Nat) (hcat : Option (Schema × Nat)) (cs : Schema)
    (hcs : st.cachedSchema = some cs) :
    (st.checkpointUpdated = false →
      processMsg cfg env st ⟨t, idx, ht, hcat, MsgKind.splitOp true⟩ = Except.ok
        { st with
          checkpoint := ⟨t, idx, 0, "", 0⟩,
          lastStreamed := ⟨t, idx⟩,
          lastSeen := ⟨t, idx⟩,
          splitOpId := ⟨t, idx⟩,
          checkpointUpdated := true }) ∧
    (st.checkpointUpdated = true →
      processMsg cfg env st ⟨t, idx, ht, hcat, MsgKind.splitOp true⟩ =
        Except.ok { st with lastSeen := ⟨t, idx⟩ }) ∧
    (processMsg cfg env st ⟨t, idx, ht, hcat, MsgKind.splitOp false⟩ =
        Except.ok { st with lastSeen := ⟨t, idx⟩ }) ∧
    (∀ recs ckpt updated ls pin fromOp,
      (finishTail recs ckpt updated ls ⟨t, idx⟩ false pin fromOp).tabletSplit =
        (t == ckpt.term && idx == ckpt.index)) := by
  refine ⟨?_, ?_, ?_, ?_⟩
  · intro hupd
    have hres := headSchemaResolve_cached env
      ⟨t, idx, ht, hcat, MsgKind.splitOp true⟩
      { st with lastSeen := ⟨t, idx⟩ } cs hcs
    simp only [processMsg, hres]
    simp only [if_true]
    try dsimp only
    rw [hupd]
    simp only [Bool.false_eq_true, if_false, setCheckpoint]
  · intro hupd
    have hres := headSchemaResolve_cached env
      ⟨t, idx, ht, hcat, MsgKind.splitOp true⟩
      { st with lastSeen := ⟨t, idx⟩ } cs hcs
    simp only [processMsg, hres]
    simp only [if_true]
    try dsimp only
    rw [hupd]
    simp only [if_true]
  · have hres := headSchemaResolve_cached env
      ⟨t, idx, ht, hcat, MsgKind.splitOp false⟩
      { st with lastSeen := ⟨t, idx⟩ } cs hcs
    simp only [processMsg, hres]
    simp
  · intro recs ckpt updated ls pin fromOp
    simp [finishTail]

/-- C7, witness at concrete inputs. -/
theorem tabletSplitHandling_amended_witness :
    (({ cachedSchema := some {} } : WalState).checkpointUpdated = false →
      processMsg {} {} { cachedSchema := some {} }
        ⟨4, 6, 0, none, MsgKind.splitOp true⟩ = Except.ok
        { ({ cachedSchema := some {} } : WalState) with
          checkpoint := ⟨4, 6, 0, "", 0⟩,
          lastStreamed := ⟨4, 6⟩,
          lastSeen := ⟨4, 6⟩,
          splitOpId := ⟨4, 6⟩,
          checkpointUpdated := true }) ∧
    (({ cachedSchema := some {} } : WalState).checkpointUpdated = true →
      processMsg {} {} { cachedSchema := some {} }
        ⟨4, 6, 0, none, MsgKind.splitOp true⟩ =
        Except.ok { ({ cachedSchema := some {} } : WalState) with
                    lastSeen := ⟨4, 6⟩ }) ∧
    (processMsg {} {} { cachedSchema := some {} }
        ⟨4, 6, 0, none, MsgKind.splitOp false⟩ =
        Except.ok { ({ cachedSchema := some {} } : WalState) with
                    lastSeen := ⟨4, 6⟩ }) ∧
    (∀ recs ckpt updated ls pin fromOp,
      (finishTail recs ckpt updated ls ⟨4, 6⟩ false pin fromOp).tabletSplit =
        ((4 : Int) == ckpt.term && (6 : Int) == ckpt.index)) :=
  tabletSplitHandling_amended {} {} { cachedSchema := some {} } 4 6 0 none {} rfl

/-! ## C1: cursor monotonicity -/

/-- C1, counterexample. At the snapshot-completion transition the returned
checkpoint zeroes `write_id`, `key` and `snapshot_time` while keeping the
cursor's (term, index); under the claim's five-field lexicographic order
(term, index, snapshot_time, key, write_id) that checkpoint is strictly
less than the received cursor, so the claimed order is violated by the
very transition the claim endorses. -/
theorem cursorMonotonicity_counterexample :
    ∃ out, getChangesForCDCSDK {} {} ⟨3, 7, -1, "k", 5⟩ none 0 ⟨0, 0⟩ =
        Except.ok out ∧
      out.cdcSdkCheckpoint = ⟨3, 7, 0, "", 0⟩ ∧
      cursorLeB ⟨3, 7, -1, "k", 5⟩ out.cdcSdkCheckpoint = false := by
  refine ⟨_, rfl, rfl, ?_⟩
  decide

/-- C1, amended. The returned checkpoint is never (term, index)-below the
request cursor, provided the log reader only hands back entries at or
after the cursor with transaction entries in APPLYING state, and the
last-replicated OpId read by the handshake's `SetCheckpoint` (the second
`GetLastReplicatedData` read, line 789) is at or after the cursor. (The
full five-field lexicographic order of the original claim fails at
snapshot completion and when a finished transaction resets key and write
id.) -/
theorem cursorMonotonicity_amended (cfg : Config) (env : TabletEnv)
    (fromOp : CheckpointPB) (ics : Option Schema) (icv : Nat) (ils : OpId)
    (out : GCOut)
    (hgood : ∀ b ∈ env.batches, ∀ m ∈ b, goodMsg fromOp m)
    (hlr : opIdLeB ⟨fromOp.term, fromOp.index⟩ env.lastReplicated2.1 = true)
    (hok : getChangesForCDCSDK cfg env fromOp ics icv ils = Except.ok out) :
    opIdLeB ⟨fromOp.term, fromOp.index⟩
      ⟨out.cdcSdkCheckpoint.term, out.cdcSdkCheckpoint.index⟩ = true := by
  simp only [getChangesForCDCSDK] at hok
  split at hok
  · split at hok
    · injection hok with h2
      subst h2
      dsimp only [finishTail]
      simp only [if_true]
      exact hlr
    · split at hok
      · exact absurd hok (by simp)
      · injection hok with h2
        subst h2
        dsimp only [finishTail]
        simp only [if_true]
        split
        · exact opIdLeB_refl _
        · exact opIdLeB_refl _
  · split at hok
    · split at hok
      · exact absurd hok (by simp)
      · rename_i recs ckpt nc nv heq
        obtain ⟨hct, hci⟩ := processIntents_ckpt_id _ _ _ _ _ _ _ _ _ _ _ _ _ _
          _ _ _ _ heq
        injection hok with h2
        subst h2
        dsimp only [finishTail]
        simp only [if_true]
        rw [hct, hci]
        exact opIdLeB_refl _
    · split at hok
      · exact absurd hok (by simp)
      · rename_i st1 heq
        have hinv1 := walLoop_mono cfg env fromOp env.batches
          { lastStreamed := ils, lastSeen := ⟨fromOp.term, fromOp.index⟩,
            cachedSchema := ics, cachedVersion := icv } st1 hgood
          ⟨fun hc => absurd hc (by simp), fun hc => absurd rfl hc⟩ heq
        injection hok with h2
        subst h2
        dsimp only [finishTail]
        split
        · rename_i hfb
          dsimp only
          simp only [if_true]
          have hne : st1.lastSeenDefault ≠ (⟨-1, -1⟩ : OpId) := by
            have := (Bool.and_eq_true _ _).mp hfb
            exact bne_iff_ne.mp this.2
          exact hinv1.2 hne
        · split
          · rename_i hupd
            exact hinv1.1 hupd
          · exact opIdLeB_refl _

/-- C1, witness: a WAL run over one non-actionable entry, resolved through
the last-seen-default fallback. -/
theorem cursorMonotonicity_amended_witness :
    opIdLeB ⟨(⟨2, 4, 0, "", 0⟩ : CheckpointPB).term,
        (⟨2, 4, 0, "", 0⟩ : CheckpointPB).index⟩
      ⟨(⟨2, 5, 0, "", 0⟩ : CheckpointPB).term,
        (⟨2, 5, 0, "", 0⟩ : CheckpointPB).index⟩ = true :=
  cursorMonotonicity_amended {}
    { lastReplicated2 := (⟨2, 4⟩, 0),
      batches := [[⟨2, 5, 0, none, MsgKind.otherOp⟩]] }
    ⟨2, 4, 0, "", 0⟩ none 0 ⟨0, 0⟩
    { records := [],
      cdcSdkCheckpoint := ⟨2, 5, 0, "", 0⟩,
      respCheckpointOp := some ⟨2, 5⟩,
      lastStreamed := ⟨2, 5⟩,
      retentionPin := none,
      tabletSplit := false }
    (by
      intro b hb m hm
      simp only [List.mem_singleton] at hb
      subst hb
      simp only [List.mem_singleton] at hm
      subst hm
      exact ⟨by decide, trivial⟩)
    (by decide)
    rfl

end CdcSdk
